import Mathlib

/-!
Verification of the STCBilling (BookERP) order-to-cash core against its
natural-language specification.

The repository contains two parallel FastAPI applications:
* `main.py` + `services.py` + `models.py` — the v2 pipeline
  (SalesOrder → Challan → Invoice → Payment, returns, credit control);
* `app.py` — the earlier v1 app (direct invoice flow) with its own copies of
  `get_stock`, `invoice_totals` and the `update_invoice_status` derivation.

Both are embedded shallowly below.  Database tables are lists of records,
primary-key lookup (`session.get`) is `List.find?` on the `id` field, and an
autoincrement primary key is modelled as `max existing id + 1`.  Python floats
holding money are modelled as `ℚ`; `round(x, 2)` is modelled by `round2`
(round-to-nearest on hundredths — Python's banker's rounding differs only on
exact half-cent ties, which no claim exercises).  Machine `int`s are `ℤ`.

Request handlers run inside `with Session(engine) as s:`; an uncaught
`HTTPException` rolls the session back to the last `commit()`.  Handlers that
can fail are therefore embedded as `Except (Err × DB) DB`, where the error
carries the database as of the most recent commit (the state the failed
request leaves behind).  `services.get_stock` commits when it lazily creates a
zero-quantity row, so it threads a (committed, pending) pair of states.
-/

/-- Rounding of a rational to 2 decimal places, modelling Python `round(x, 2)`
(ties excepted, see header): round `100·x` to the nearest integer and divide
back by 100. -/
def round2 (x : ℚ) : ℚ := ((Rat.floor (100 * x + 1 / 2) : ℤ) : ℚ) / 100

/-- Parse a nonempty all-digit character list as a natural number
(helper for Python `int(...)`). -/
def parseNat (cs : List Char) : Option Nat :=
  if cs ≠ [] ∧ cs.all Char.isDigit then
    some (cs.foldl (fun a c => a * 10 + (c.toNat - '0'.toNat)) 0)
  else none

/-- Python `int(str)` on a trimmed literal: optional sign followed by digits.
(Python additionally tolerates surrounding whitespace and `_` digit
separators; no document number the system handles has either.) -/
def parseInt (cs : List Char) : Option ℤ :=
  match cs with
  | '-' :: rest => (parseNat rest).map (fun n => -(n : ℤ))
  | '+' :: rest => (parseNat rest).map (fun n => (n : ℤ))
  | _ => (parseNat cs).map (fun n => (n : ℤ))

/-- Python `x.replace(pat, "")`: delete every (non-overlapping, left-to-right)
occurrence of `pat` in `s`. -/
def replaceAllAux (pat : List Char) : List Char → List Char
  | [] => []
  | c :: rest =>
    if h : pat ≠ [] ∧ pat.isPrefixOf (c :: rest) then
      replaceAllAux pat ((c :: rest).drop pat.length)
    else
      c :: replaceAllAux pat rest
termination_by s => s.length
decreasing_by
  · have hpre : pat <+: (c :: rest) := by
      exact (List.isPrefixOf_iff_prefix).1 h.2
    have hlen : pat.length ≤ (c :: rest).length := hpre.length_le
    have hpos : 0 < pat.length := List.length_pos.2 h.1
    simp only [List.length_drop]
    omega
  · simp [Nat.lt_succ_self]

/-- Does `pat` occur anywhere in `s` as a contiguous sublist? -/
def containsSub (pat : List Char) : List Char → Bool
  | [] => pat.isEmpty
  | c :: rest => pat.isPrefixOf (c :: rest) || containsSub pat rest

/-- Python `str.zfill(w)`: left-pad with `'0'` to width `w`, keeping a leading
sign in front of the padding. -/
def zfill (w : Nat) (s : List Char) : List Char :=
  if w ≤ s.length then s
  else
    match s with
    | [] => List.replicate w '0'
    | c :: rest =>
      if c = '-' ∨ c = '+' then c :: (List.replicate (w - s.length) '0' ++ rest)
      else List.replicate (w - s.length) '0' ++ s

/-- Python `str(n)` for an integer. -/
def intChars (n : ℤ) : List Char :=
  if n < 0 then '-' :: Nat.toDigits 10 n.natAbs else Nat.toDigits 10 n.toNat

/-! ## Data model (models.py)

Display-only columns (titles, addresses, dates of no computational use,
ISBN/HSN/barcode, transporter, notes, …) are omitted; every column the
embedded operations read or write is present under its source name. -/

/-- Item (models.py): fields used by pricing/GST. -/
structure Item where
  id : Nat
  gst_percent : ℚ
  sale_price : ℚ
deriving DecidableEq, Repr

/-- Party (models.py): fields used by credit control and pricing. -/
structure Party where
  id : Nat
  credit_limit : ℚ
  payment_terms_days : ℤ
  is_blocked : Bool
deriving DecidableEq, Repr

/-- PartyPrice (models.py): per-(party,item) discount override. -/
structure PartyPrice where
  party_id : Nat
  item_id : Nat
  discount_percent : ℚ
deriving DecidableEq, Repr

/-- Stock (models.py): per-(warehouse,item) quantity. -/
structure Stock where
  warehouse_id : Nat
  item_id : Nat
  qty : ℤ
deriving DecidableEq, Repr

/-- SalesOrder (models.py). -/
structure SalesOrder where
  id : Nat
  so_no : String
  party_id : Nat
  warehouse_id : Nat
  status : String
deriving DecidableEq, Repr

/-- SalesOrderLine (models.py). -/
structure SalesOrderLine where
  so_id : Nat
  item_id : Nat
  qty : ℤ
  rate : ℚ
  gst_percent : ℚ
  discount_percent : ℚ
deriving DecidableEq, Repr

/-- Challan (models.py). -/
structure Challan where
  id : Nat
  dc_no : String
  so_id : Nat
  status : String
deriving DecidableEq, Repr

/-- ChallanLine (models.py). -/
structure ChallanLine where
  dc_id : Nat
  item_id : Nat
  qty : ℤ
deriving DecidableEq, Repr

/-- Invoice (models.py). -/
structure Invoice where
  id : Nat
  invoice_no : String
  dc_id : Nat
  party_id : Nat
  warehouse_id : Nat
  invoice_date : ℤ
  status : String
deriving DecidableEq, Repr

/-- InvoiceLine (models.py). -/
structure InvoiceLine where
  invoice_id : Nat
  item_id : Nat
  qty : ℤ
  rate : ℚ
  gst_percent : ℚ
  discount_percent : ℚ
deriving DecidableEq, Repr

/-- Payment (models.py); `invoice_id` is nullable in the schema. -/
structure Payment where
  party_id : Nat
  invoice_id : Option Nat
  amount : ℚ
deriving DecidableEq, Repr

/-- ReturnNote (models.py). -/
structure ReturnNote where
  id : Nat
  rn_no : String
  party_id : Nat
  warehouse_id : Nat
  status : String
deriving DecidableEq, Repr

/-- ReturnLine (models.py). -/
structure ReturnLine where
  return_id : Nat
  item_id : Nat
  qty : ℤ
deriving DecidableEq, Repr

/-- The v2 database: one list per table (insertion order = autoincrement
order, new rows appended at the end). -/
structure DB where
  items : List Item
  parties : List Party
  partyPrices : List PartyPrice
  stocks : List Stock
  sos : List SalesOrder
  soLines : List SalesOrderLine
  challans : List Challan
  challanLines : List ChallanLine
  invoices : List Invoice
  invoiceLines : List InvoiceLine
  payments : List Payment
  returnNotes : List ReturnNote
  returnLines : List ReturnLine
deriving DecidableEq, Repr

/-! ## Primary-key and filtered lookups -/

/-- Primary-key lookup `session.get(Item, i)`. -/
def findItem (items : List Item) (i : Nat) : Option Item :=
  items.find? (fun it => it.id == i)

/-- Primary-key lookup `session.get(Party, i)`. -/
def findParty (db : DB) (i : Nat) : Option Party :=
  db.parties.find? (fun p => p.id == i)

/-- Primary-key lookup `session.get(SalesOrder, i)`. -/
def findSO (db : DB) (i : Nat) : Option SalesOrder :=
  db.sos.find? (fun so => so.id == i)

/-- Primary-key lookup `session.get(Challan, i)`. -/
def findChallan (db : DB) (i : Nat) : Option Challan :=
  db.challans.find? (fun dc => dc.id == i)

/-- Primary-key lookup `session.get(Invoice, i)`. -/
def findInvoice (db : DB) (i : Nat) : Option Invoice :=
  db.invoices.find? (fun inv => inv.id == i)

/-- Primary-key lookup `session.get(ReturnNote, i)`. -/
def findRN (db : DB) (i : Nat) : Option ReturnNote :=
  db.returnNotes.find? (fun rn => rn.id == i)

/-- The `select(Stock).where(warehouse_id ==, item_id ==)).first()` query. -/
def findStock (stocks : List Stock) (w i : Nat) : Option Stock :=
  stocks.find? (fun st => st.warehouse_id == w && st.item_id == i)

/-- Overwrite the qty of the first (warehouse,item) stock row — the ORM object
`get_stock` returned is a single row, mutated in place. -/
def setStockQty (w i : Nat) (q : ℤ) : List Stock → List Stock
  | [] => []
  | st :: rest =>
    if st.warehouse_id == w && st.item_id == i then { st with qty := q } :: rest
    else st :: setStockQty w i q rest

/-- Autoincrement id for a new Challan. -/
def freshChallanId (db : DB) : Nat :=
  db.challans.foldl (fun m c => max m c.id) 0 + 1

/-- Autoincrement id for a new Invoice. -/
def freshInvoiceId (db : DB) : Nat :=
  db.invoices.foldl (fun m c => max m c.id) 0 + 1

/-- Autoincrement id for a new SalesOrder. -/
def freshSOId (db : DB) : Nat :=
  db.sos.foldl (fun m c => max m c.id) 0 + 1

/-- Autoincrement id for a new ReturnNote. -/
def freshRNId (db : DB) : Nat :=
  db.returnNotes.foldl (fun m c => max m c.id) 0 + 1

/-! ## Errors

`HTTPException`s raised by the embedded handlers, by business meaning (the
spec's error taxonomy).  `overdueBalance` and `creditLimitExceeded` carry the
numeric context the source interpolates into the message. -/

set_option maxRecDepth 8000

/-- Business-rule failures surfaced by the handlers. -/
inductive Err where
  | notFound
  | invalidState
  | insufficientStock
  | partyBlocked
  | overdueBalance (overdue : ℚ)
  | creditLimitExceeded (limit outstanding newInvoice : ℚ)
deriving DecidableEq, Repr

deriving instance DecidableEq for Except

/-- Final database state of a handler run: the new state on success, the
state as of the last commit on failure. -/
def resultDB : Except (Err × DB) DB → DB
  | .ok d => d
  | .error (_, d) => d

/-! ## services.py -/

/-- Clamped party discount and resolved rate (services.py `apply_party_price`).
Pure lookup; returns `(rate, discount_percent)`. -/
def apply_party_price (pps : List PartyPrice) (party_id : Nat) (item : Item) :
    ℚ × ℚ :=
  match pps.find? (fun pp => pp.party_id == party_id && pp.item_id == item.id) with
  | none => (item.sale_price, 0)
  | some pp =>
    let disc := max 0 (min 100 pp.discount_percent)
    (round2 (item.sale_price * (1 - disc / 100)), disc)

/-- services.py `get_stock`: return the (warehouse,item) row, lazily creating
a zero-qty row — and committing — if absent.  Takes and returns the
(committed, pending) session pair; result is `(qty, committed, pending)`. -/
def get_stock (committed pending : DB) (w i : Nat) : ℤ × DB × DB :=
  match findStock pending.stocks w i with
  | some st => (st.qty, committed, pending)
  | none =>
    let pending' := { pending with stocks := pending.stocks ++ [⟨w, i, 0⟩] }
    (0, pending', pending')

/-- Five aggregate figures returned by `invoice_totals`. -/
structure Totals where
  subtotal : ℚ
  gst : ℚ
  total : ℚ
  paid : ℚ
  balance : ℚ
deriving DecidableEq, Repr

/-- Loop body of services.py `invoice_totals`: fold one invoice line into the
running (subtotal, gst). -/
def totalsStep (acc : ℚ × ℚ) (ln : InvoiceLine) : ℚ × ℚ :=
  let amt := (ln.qty : ℚ) * ln.rate
  let disc_amt := amt * (ln.discount_percent / 100)
  let taxable := amt - disc_amt
  (acc.1 + taxable, acc.2 + taxable * (ln.gst_percent / 100))

/-- Accumulation loop of services.py `invoice_totals`: running
(subtotal, gst) over the invoice lines. -/
def totalsPair (lines : List InvoiceLine) : ℚ × ℚ :=
  lines.foldl totalsStep (0, 0)

/-- Loop body of the `paid = sum(p.amount for p in pays)` accumulation. -/
def paidStep (a : ℚ) (p : Payment) : ℚ := a + p.amount

/-- services.py `invoice_totals`: aggregates over the invoice's lines and
payments, rounded to 2 decimals at the aggregate level only. -/
def invoice_totals (db : DB) (invoice_id : Nat) : Totals :=
  let lines := db.invoiceLines.filter (fun l => l.invoice_id == invoice_id)
  let sg := totalsPair lines
  let total := sg.1 + sg.2
  let paid :=
    (db.payments.filter (fun p => p.invoice_id == some invoice_id)).foldl
      paidStep 0
  ⟨round2 sg.1, round2 sg.2, round2 total, round2 paid, round2 (total - paid)⟩

/-! ## main.py -/

/-- main.py `stock_adjust` (`POST /stock/adjust`): fetch-or-create the stock
row, apply the signed delta, reject if the result would be negative.  The
in-memory mutation before the check is rolled back on failure; a row freshly
created by `get_stock` was already committed. -/
def stock_adjust (db : DB) (warehouse_id item_id : Nat) (delta : ℤ) :
    Except (Err × DB) DB :=
  let r := get_stock db db warehouse_id item_id
  let q := r.1 + delta
  if q < 0 then .error (.insufficientStock, r.2.1)
  else .ok { r.2.2 with stocks := setStockQty warehouse_id item_id q r.2.2.stocks }

/-- Document numbers scanned by `next_no` for a given prefix
(the `if prefix == "SO"/"DC"/"RN" else INV` dispatch). -/
def existingNos (db : DB) (prefix_ : String) : List String :=
  if prefix_ = "SO" then db.sos.map (·.so_no)
  else if prefix_ = "DC" then db.challans.map (·.dc_no)
  else if prefix_ = "RN" then db.returnNotes.map (·.rn_no)
  else db.invoices.map (·.invoice_no)

/-- Numeric values `next_no` extracts: for every stored number starting with
`p`, Python runs `int(x.replace(p, ""))` — deleting every occurrence of `p`,
not just the leading one — and keeps the parses that succeed. -/
def extractedNums (p : List Char) (existing : List String) : List ℤ :=
  existing.filterMap (fun x =>
    if x ≠ "" ∧ p.isPrefixOf x.data then parseInt (replaceAllAux p x.data)
    else none)

/-- main.py `next_no`: period-scoped document numbering.  `datetime.now`'s
YYYYMM is passed in as `period`. -/
def next_no (prefix_ period : String) (db : DB) : String :=
  let p := prefix_ ++ "-" ++ period ++ "-"
  let nums := extractedNums p.data (existingNos db prefix_)
  let n : ℤ := match nums.max? with
    | some m => m + 1
    | none => 1
  ⟨p.data ++ zfill 4 (intChars n)⟩

/-- Outstanding/overdue figures of `calc_party_summary`. -/
structure Summary where
  outstanding : ℚ
  overdue : ℚ
deriving DecidableEq, Repr

/-- main.py `calc_party_summary`: sum positive invoice balances into
outstanding, and into overdue when past `invoice_date + payment_terms_days`
(dates as ordinal day numbers, `today` passed in). -/
def calc_party_summary (db : DB) (today : ℤ) (party : Party) : Summary :=
  let invs := db.invoices.filter (fun iv => iv.party_id == party.id)
  let acc := invs.foldl
    (fun (acc : ℚ × ℚ) iv =>
      let bal := (invoice_totals db iv.id).balance
      if bal ≤ 0 then acc
      else
        let terms := party.payment_terms_days
        if terms > 0 ∧ today > iv.invoice_date + terms then
          (acc.1 + bal, acc.2 + bal)
        else (acc.1 + bal, acc.2))
    (0, 0)
  ⟨round2 acc.1, round2 acc.2⟩

/-- main.py `so_create` (`POST /sales-orders/create`): insert a new sales
order, status defaulting to OPEN. -/
def so_create (db : DB) (party_id warehouse_id : Nat) (period : String) : DB :=
  { db with sos := db.sos ++
      [⟨freshSOId db, next_no "SO" period db, party_id, warehouse_id, "OPEN"⟩] }

/-- main.py `so_add_line`: resolve the party price for the item and append a
sales-order line.  (A missing item makes the source dereference `None` —
an uncaught error, rolled back; embedded as `notFound`.) -/
def so_add_line (db : DB) (so_id item_id : Nat) (qty : ℤ) :
    Except (Err × DB) DB :=
  match findSO db so_id with
  | none => .error (.notFound, db)
  | some so =>
    match findItem db.items item_id with
    | none => .error (.notFound, db)
    | some item =>
      let rd := apply_party_price db.partyPrices so.party_id item
      .ok { db with soLines := db.soLines ++
              [⟨so_id, item_id, qty, rd.1, item.gst_percent, rd.2⟩] }

/-- main.py `so_approve` (`POST /sales-orders/{id}/approve`): set the order's
status to APPROVED.  The source checks only existence — not the current
status. -/
def so_approve (db : DB) (so_id : Nat) : Except (Err × DB) DB :=
  match findSO db so_id with
  | none => .error (.notFound, db)
  | some _ =>
    .ok { db with sos := db.sos.map (fun so =>
            if so.id == so_id then { so with status := "APPROVED" } else so) }

/-- Dispatch loop of main.py `challan_create`: for each sales-order line,
`get_stock`, reject if available < ordered, else decrement stock and add the
challan line.  Threads the session's (committed, pending) states; an
insufficient-stock `raise` rolls back to the committed state. -/
def challanLoop (wh dcId : Nat) :
    List SalesOrderLine → DB → DB → Except (Err × DB) DB
  | [], _, pending => .ok pending
  | ln :: rest, committed, pending =>
    let r := get_stock committed pending wh ln.item_id
    if r.1 < ln.qty then .error (.insufficientStock, r.2.1)
    else
      let pending' :=
        { r.2.2 with
          stocks := setStockQty wh ln.item_id (r.1 - ln.qty) r.2.2.stocks,
          challanLines := r.2.2.challanLines ++ [⟨dcId, ln.item_id, ln.qty⟩] }
      challanLoop wh dcId rest r.2.1 pending'

/-- main.py `challan_create` (`POST /challans/create`): require an APPROVED
sales order, insert and COMMIT the challan header, then copy lines while
decrementing stock, finally mark the order DISPATCHED and commit. -/
def challan_create (db : DB) (period : String) (so_id : Nat) :
    Except (Err × DB) DB :=
  match findSO db so_id with
  | none => .error (.invalidState, db)
  | some so =>
    if so.status ≠ "APPROVED" then .error (.invalidState, db)
    else
      let dcId := freshChallanId db
      let dc : Challan := ⟨dcId, next_no "DC" period db, so_id, "OPEN"⟩
      let db1 := { db with challans := db.challans ++ [dc] }
      let so_lines := db.soLines.filter (fun l => l.so_id == so_id)
      match challanLoop so.warehouse_id dcId so_lines db1 db1 with
      | .error e => .error e
      | .ok pending =>
        .ok { pending with sos := pending.sos.map (fun s =>
              if s.id == so_id then { s with status := "DISPATCHED" } else s) }

/-- Projection loop of main.py `invoice_create`: running (subtotal, gst) of
the candidate invoice, re-resolving the price per challan line and silently
skipping lines whose item no longer exists. -/
def projectedStep (items : List Item) (pps : List PartyPrice) (party_id : Nat)
    (acc : ℚ × ℚ) (dln : ChallanLine) : ℚ × ℚ :=
  match findItem items dln.item_id with
  | none => acc
  | some it =>
    let rd := apply_party_price pps party_id it
    let amt := (dln.qty : ℚ) * rd.1
    let disc_amt := amt * (rd.2 / 100)
    let taxable := amt - disc_amt
    (acc.1 + taxable, acc.2 + taxable * (it.gst_percent / 100))

/-- Projection loop of main.py `invoice_create`: running (subtotal, gst) of
the candidate invoice over the challan lines. -/
def projectedPair (items : List Item) (pps : List PartyPrice) (party_id : Nat)
    (dcLines : List ChallanLine) : ℚ × ℚ :=
  dcLines.foldl (projectedStep items pps party_id) (0, 0)

/-- The `projected_total` of main.py `invoice_create`. -/
def projectedTotal (items : List Item) (pps : List PartyPrice) (party_id : Nat)
    (dcLines : List ChallanLine) : ℚ :=
  (projectedPair items pps party_id dcLines).1 +
    (projectedPair items pps party_id dcLines).2

/-- Line-copy loop of main.py `invoice_create`: challan lines become invoice
lines with freshly resolved rate/discount and the item's current GST; lines
whose item no longer exists are silently skipped. -/
def copyLines (items : List Item) (pps : List PartyPrice)
    (party_id invId : Nat) (dcLines : List ChallanLine) : List InvoiceLine :=
  dcLines.filterMap (fun dln =>
    match findItem items dln.item_id with
    | none => none
    | some it =>
      let rd := apply_party_price pps party_id it
      some ⟨invId, it.id, dln.qty, rd.1, it.gst_percent, rd.2⟩)

/-- main.py `invoice_create` (`POST /invoices/create`): require an OPEN
challan, run credit control (blocked party, overdue balance, credit limit
against outstanding + projected total), then insert the invoice header,
copy the challan lines with re-resolved prices, and mark the challan
INVOICED.  Every credit-control failure precedes the first insert. -/
def invoice_create (db : DB) (dc_id : Nat) (today invoice_date : ℤ)
    (period : String) : Except (Err × DB) DB :=
  match findChallan db dc_id with
  | none => .error (.invalidState, db)
  | some dc =>
  if dc.status ≠ "OPEN" then .error (.invalidState, db)
  else
  match findSO db dc.so_id with
  | none => .error (.notFound, db)
  | some so =>
  match findParty db so.party_id with
  | none => .error (.notFound, db)
  | some party =>
  let summary := calc_party_summary db today party
  if party.is_blocked then .error (.partyBlocked, db)
  else if summary.overdue > 0 then .error (.overdueBalance summary.overdue, db)
  else
  let dc_lines := db.challanLines.filter (fun l => l.dc_id == dc_id)
  let projected_total := projectedTotal db.items db.partyPrices party.id dc_lines
  if party.credit_limit ≠ 0 ∧
      summary.outstanding + projected_total > party.credit_limit then
    .error (.creditLimitExceeded party.credit_limit summary.outstanding
              (round2 projected_total), db)
  else
    let invId := freshInvoiceId db
    let inv : Invoice :=
      ⟨invId, next_no "INV" period db, dc_id, party.id, so.warehouse_id,
        invoice_date, "OPEN"⟩
    .ok { db with
          invoices := db.invoices ++ [inv],
          invoiceLines := db.invoiceLines ++
            copyLines db.items db.partyPrices party.id invId dc_lines,
          challans := db.challans.map (fun c =>
            if c.id == dc_id then { c with status := "INVOICED" } else c) }

/-- main.py `add_payment` (`POST /payments/add`): look up the invoice and
append a payment row.  The invoice's own status column is not touched. -/
def add_payment (db : DB) (inv_id : Nat) (amount : ℚ) :
    Except (Err × DB) DB :=
  match findInvoice db inv_id with
  | none => .error (.notFound, db)
  | some inv =>
    .ok { db with payments := db.payments ++ [⟨inv.party_id, some inv_id, amount⟩] }

/-- main.py `set_party_price` (`POST /parties/price`): upsert the
(party,item) discount override, last write wins. -/
def set_party_priceFirst (party_id item_id : Nat) (disc : ℚ) :
    List PartyPrice → List PartyPrice
  | [] => []
  | pp :: rest =>
    if pp.party_id == party_id && pp.item_id == item_id then
      { pp with discount_percent := disc } :: rest
    else pp :: set_party_priceFirst party_id item_id disc rest

/-- main.py `set_party_price`, outer handler: update the existing override
row if present, else insert one. -/
def set_party_price (db : DB) (party_id item_id : Nat) (disc : ℚ) : DB :=
  match db.partyPrices.find?
      (fun pp => pp.party_id == party_id && pp.item_id == item_id) with
  | some _ =>
    { db with partyPrices := set_party_priceFirst party_id item_id disc db.partyPrices }
  | none =>
    { db with partyPrices := db.partyPrices ++ [⟨party_id, item_id, disc⟩] }

/-- main.py `returns_create` (`POST /returns/create`): insert a new return
note, status defaulting to OPEN. -/
def returns_create (db : DB) (party_id warehouse_id : Nat) (period : String) : DB :=
  { db with returnNotes := db.returnNotes ++
      [⟨freshRNId db, next_no "RN" period db, party_id, warehouse_id, "OPEN"⟩] }

/-- main.py `returns_add_line`: require an OPEN return note and append the
line; the quantity is taken from the form unvalidated. -/
def returns_add_line (db : DB) (rn_id item_id : Nat) (qty : ℤ) :
    Except (Err × DB) DB :=
  match findRN db rn_id with
  | none => .error (.invalidState, db)
  | some rn =>
    if rn.status ≠ "OPEN" then .error (.invalidState, db)
    else .ok { db with returnLines := db.returnLines ++ [⟨rn_id, item_id, qty⟩] }

/-- Posting loop of main.py `returns_post`: add each return line's quantity
back to stock, with no check of any kind.  No failure can follow, so the
committed/pending distinction is irrelevant and one state is threaded. -/
def returnsLoop (wh : Nat) : List ReturnLine → DB → DB
  | [], pending => pending
  | ln :: rest, pending =>
    let r := get_stock pending pending wh ln.item_id
    returnsLoop wh rest
      { r.2.2 with stocks := setStockQty wh ln.item_id (r.1 + ln.qty) r.2.2.stocks }

/-- main.py `returns_post` (`POST /returns/{id}/post`): require an OPEN
return note, add every line's qty back to stock, mark the note POSTED. -/
def returns_post (db : DB) (rn_id : Nat) : Except (Err × DB) DB :=
  match findRN db rn_id with
  | none => .error (.invalidState, db)
  | some rn =>
    if rn.status ≠ "OPEN" then .error (.invalidState, db)
    else
      let lines := db.returnLines.filter (fun l => l.return_id == rn_id)
      let pending := returnsLoop rn.warehouse_id lines db
      .ok { pending with returnNotes := pending.returnNotes.map (fun r =>
            if r.id == rn_id then { r with status := "POSTED" } else r) }

/-! ## The v2 pipeline as a transition system

One constructor per embedded mutating handler, with the request parameters
as arguments; `step` is the resulting state (success state or, on a failed
request, the state as of the handler's last commit). -/

/-- A single v2 request against the mutating handlers. -/
inductive Req where
  | stockAdjust (warehouse_id item_id : Nat) (delta : ℤ)
  | soCreate (party_id warehouse_id : Nat) (period : String)
  | soAddLine (so_id item_id : Nat) (qty : ℤ)
  | soApprove (so_id : Nat)
  | challanCreate (so_id : Nat) (period : String)
  | invoiceCreate (dc_id : Nat) (today invoice_date : ℤ) (period : String)
  | addPayment (inv_id : Nat) (amount : ℚ)
  | setPartyPrice (party_id item_id : Nat) (disc : ℚ)
  | returnsCreate (party_id warehouse_id : Nat) (period : String)
  | returnsAddLine (rn_id item_id : Nat) (qty : ℤ)
  | returnsPost (rn_id : Nat)

/-- Database state after one request (committed state if the request
failed). -/
def step (a : Req) (db : DB) : DB :=
  match a with
  | .stockAdjust w i d => resultDB (stock_adjust db w i d)
  | .soCreate p w per => so_create db p w per
  | .soAddLine s i q => resultDB (so_add_line db s i q)
  | .soApprove s => resultDB (so_approve db s)
  | .challanCreate s per => resultDB (challan_create db per s)
  | .invoiceCreate dcId t d per => resultDB (invoice_create db dcId t d per)
  | .addPayment i amt => resultDB (add_payment db i amt)
  | .setPartyPrice p i disc => set_party_price db p i disc
  | .returnsCreate p w per => returns_create db p w per
  | .returnsAddLine r i q => resultDB (returns_add_line db r i q)
  | .returnsPost r => resultDB (returns_post db r)

/-! ## Status and stock views -/

/-- Quantity on hand for (warehouse,item), 0 when no row exists (the
get-or-create-zero reading of the stock table). -/
def stockQtyView (db : DB) (w i : Nat) : ℤ :=
  ((findStock db.stocks w i).map Stock.qty).getD 0

/-- Status of a sales order, by primary key. -/
def soStatusView (db : DB) (so_id : Nat) : Option String :=
  (findSO db so_id).map SalesOrder.status

/-- Status of a challan, by primary key. -/
def challanStatusView (db : DB) (dc_id : Nat) : Option String :=
  (findChallan db dc_id).map Challan.status

/-- Status of an invoice, by primary key. -/
def invoiceStatusView (db : DB) (inv_id : Nat) : Option String :=
  (findInvoice db inv_id).map Invoice.status

/-- Status of a return note, by primary key. -/
def rnStatusView (db : DB) (rn_id : Nat) : Option String :=
  (findRN db rn_id).map ReturnNote.status

/-- Every stock row is non-negative. -/
def NonnegStocks (db : DB) : Prop :=
  ∀ st ∈ db.stocks, 0 ≤ st.qty

/-! ## The v1 application (app.py)

app.py is the earlier self-contained app with its own schema: invoices are
created directly (no challan), invoice lines carry no discount, and — unlike
main.py — every totals-affecting mutation ends by calling
`update_invoice_status`. -/

namespace AppV1

/-- Invoice (app.py): fields used by status derivation and stock checks. -/
structure Invoice where
  id : Nat
  party_id : Nat
  warehouse_id : Nat
  status : String
deriving DecidableEq, Repr

/-- InvoiceLine (app.py): no discount column in the v1 schema. -/
structure InvoiceLine where
  invoice_id : Nat
  item_id : Nat
  qty : ℤ
  rate : ℚ
  gst_percent : ℚ
deriving DecidableEq, Repr

/-- Payment (app.py). -/
structure Payment where
  party_id : Nat
  invoice_id : Option Nat
  amount : ℚ
deriving DecidableEq, Repr

/-- The v1 database (tables the embedded handlers touch). -/
structure DB where
  stocks : List Stock
  invoices : List Invoice
  invoiceLines : List InvoiceLine
  payments : List Payment
deriving DecidableEq, Repr

/-- app.py `get_stock` (a second copy of the services.py one), with the same
lazily-create-and-commit behaviour; `(qty, committed, pending)`. -/
def get_stock (committed pending : DB) (w i : Nat) : ℤ × DB × DB :=
  match findStock pending.stocks w i with
  | some st => (st.qty, committed, pending)
  | none =>
    let pending' := { pending with stocks := pending.stocks ++ [⟨w, i, 0⟩] }
    (0, pending', pending')

/-- Loop body of app.py `invoice_totals` (no discount column in v1). -/
def totalsStep (acc : ℚ × ℚ) (ln : InvoiceLine) : ℚ × ℚ :=
  let line_amount := (ln.qty : ℚ) * ln.rate
  (acc.1 + line_amount, acc.2 + line_amount * (ln.gst_percent / 100))

/-- Accumulation loop of app.py `invoice_totals`. -/
def totalsPair (lines : List InvoiceLine) : ℚ × ℚ :=
  lines.foldl totalsStep (0, 0)

/-- Loop body of the v1 paid-amount sum. -/
def paidStep (a : ℚ) (p : Payment) : ℚ := a + p.amount

/-- app.py `invoice_totals`. -/
def invoice_totals (db : DB) (invoice_id : Nat) : Totals :=
  let lines := db.invoiceLines.filter (fun l => l.invoice_id == invoice_id)
  let sg := totalsPair lines
  let total := sg.1 + sg.2
  let paid_amt :=
    (db.payments.filter (fun p => p.invoice_id == some invoice_id)).foldl
      paidStep 0
  ⟨round2 sg.1, round2 sg.2, round2 total, round2 paid_amt,
    round2 (total - paid_amt)⟩

/-- app.py `update_invoice_status`: re-derive the stored status from the
current totals (no-op when the invoice does not exist). -/
def update_invoice_status (db : DB) (invoice_id : Nat) : DB :=
  match db.invoices.find? (fun i => i.id == invoice_id) with
  | none => db
  | some _ =>
    let t := invoice_totals db invoice_id
    let st :=
      if t.total ≤ 0 then "OPEN"
      else if t.balance ≤ 1 / 1000 then "PAID"
      else if t.paid > 0 then "PARTIAL"
      else "OPEN"
    { db with invoices := db.invoices.map (fun i =>
        if i.id == invoice_id then { i with status := st } else i) }

/-- app.py `invoice_add_line` (`POST /invoices/{id}/add_line`): check and
decrement stock, append the line, commit, then re-derive the status. -/
def invoice_add_line (db : DB) (invoice_id item_id : Nat) (qty : ℤ)
    (rate gst_percent : ℚ) : Except (Err × DB) DB :=
  match db.invoices.find? (fun i => i.id == invoice_id) with
  | none => .error (.notFound, db)
  | some inv =>
    let r := get_stock db db inv.warehouse_id item_id
    if r.1 < qty then .error (.insufficientStock, r.2.1)
    else
      let db' :=
        { r.2.2 with
          stocks := setStockQty inv.warehouse_id item_id (r.1 - qty) r.2.2.stocks,
          invoiceLines := r.2.2.invoiceLines ++
            [⟨invoice_id, item_id, qty, rate, gst_percent⟩] }
      .ok (update_invoice_status db' invoice_id)

/-- app.py `payments_create` (`POST /payments/create`): append the payment
(no validation of any kind), then re-derive the invoice status. -/
def payments_create (db : DB) (party_id invoice_id : Nat) (amount : ℚ) : DB :=
  update_invoice_status
    { db with payments := db.payments ++ [⟨party_id, some invoice_id, amount⟩] }
    invoice_id

/-- Status of a v1 invoice, by primary key. -/
def invoiceStatusView (db : DB) (inv_id : Nat) : Option String :=
  (db.invoices.find? (fun i => i.id == inv_id)).map Invoice.status

end AppV1

/-! ## Spec-side reference functions

These transcribe the specification's wording, to be compared with the
code-side definitions above. -/

/-- Taxable value of one invoice line as the spec words it:
`qty × rate` minus `(qty × rate) × discount_percent/100`. -/
def lineTaxable (ln : InvoiceLine) : ℚ :=
  (ln.qty : ℚ) * ln.rate - ((ln.qty : ℚ) * ln.rate) * (ln.discount_percent / 100)

/-- GST of one invoice line as the spec words it: `taxable × gst_percent/100`. -/
def lineGst (ln : InvoiceLine) : ℚ :=
  lineTaxable ln * (ln.gst_percent / 100)

/-- Numbering as the claim words it: keep the numbers beginning with `p`
whose TRAILING SUFFIX parses as an integer.  (The code instead parses
`x.replace(p, "")`, which deletes every occurrence of `p`.) -/
def trailingNums (p : List Char) (existing : List String) : List ℤ :=
  existing.filterMap (fun x =>
    if p.isPrefixOf x.data then parseInt (x.data.drop p.length) else none)

/-! ## Concrete database states for counterexamples and witnesses -/

/-- A database with every table empty. -/
def emptyDB : DB := ⟨[], [], [], [], [], [], [], [], [], [], [], [], []⟩

/-- Stock of 5 in warehouse 1 for item 1 (witness state for stock_adjust). -/
def adjDB : DB := { emptyDB with stocks := [⟨1, 1, 5⟩] }

/-- An OPEN return note with a single line of quantity −5 against a
zero-stock item. -/
def retDB : DB :=
  { emptyDB with
    stocks := [⟨1, 1, 0⟩],
    returnNotes := [⟨1, "RN-202501-0001", 1, 1, "OPEN"⟩],
    returnLines := [⟨1, 1, -5⟩] }

/-- The `retDB` state after posting: stock driven to −5, note POSTED. -/
def retDBAfter : DB :=
  { retDB with
    stocks := [⟨1, 1, -5⟩],
    returnNotes := [⟨1, "RN-202501-0001", 1, 1, "POSTED"⟩] }

/-- An APPROVED sales order for 5 units of item 1 with only 3 in stock. -/
def chalDB : DB :=
  { emptyDB with
    stocks := [⟨1, 1, 3⟩],
    sos := [⟨1, "SO-202501-0001", 1, 1, "APPROVED"⟩],
    soLines := [⟨1, 1, 5, 0, 0, 0⟩] }

/-- The `chalDB` state the failed dispatch leaves behind: the committed
challan header survives, everything else untouched. -/
def chalDBAfter : DB :=
  { chalDB with challans := [⟨1, "DC-202501-0001", 1, "OPEN"⟩] }

/-- An APPROVED two-line order: item 1 (5 wanted) is stocked with 10, item 2
(6 wanted) has no stock row at all. -/
def midDB : DB :=
  { emptyDB with
    stocks := [⟨1, 1, 10⟩],
    sos := [⟨1, "SO-202501-0001", 1, 1, "APPROVED"⟩],
    soLines := [⟨1, 1, 5, 0, 0, 0⟩, ⟨1, 2, 6, 0, 0, 0⟩] }

/-- The `midDB` state the failed dispatch leaves behind: lazily creating the
zero-stock row for item 2 committed the session mid-loop, so the first
line's stock decrement (10 → 5) and its challan line survive along with the
header. -/
def midDBAfter : DB :=
  { midDB with
    challans := [⟨1, "DC-202501-0001", 1, "OPEN"⟩],
    stocks := [⟨1, 1, 5⟩, ⟨1, 2, 0⟩],
    challanLines := [⟨1, 1, 5⟩] }

/-- A sales order already in the terminal state DISPATCHED. -/
def dispDB : DB :=
  { emptyDB with sos := [⟨1, "SO-202501-0001", 1, 1, "DISPATCHED"⟩] }

/-- The `dispDB` state after re-approval: back to APPROVED. -/
def dispDBAfter : DB :=
  { dispDB with sos := [⟨1, "SO-202501-0001", 1, 1, "APPROVED"⟩] }

/-- An OPEN challan for a party with NEGATIVE credit limit −100, no
outstanding invoices, and a one-line challan projecting to 50. -/
def negLimitDB : DB :=
  { emptyDB with
    items := [⟨1, 0, 50⟩],
    parties := [⟨1, -100, 0, false⟩],
    sos := [⟨1, "SO-202501-0001", 1, 1, "DISPATCHED"⟩],
    challans := [⟨1, "DC-202501-0001", 1, "OPEN"⟩],
    challanLines := [⟨1, 1, 1⟩] }

/-- An OPEN challan whose one line projects to 20 for a party with no limit
(credit_limit = 0) — invoice creation succeeds. -/
def okInvDB : DB :=
  { emptyDB with
    items := [⟨1, 0, 10⟩],
    parties := [⟨1, 0, 0, false⟩],
    sos := [⟨1, "SO-202501-0001", 1, 1, "DISPATCHED"⟩],
    challans := [⟨1, "DC-202501-0001", 1, "OPEN"⟩],
    challanLines := [⟨1, 1, 2⟩] }

/-- An OPEN challan with two lines, one of which references item 99 that no
longer exists (witness state for the silent-skip behaviour). -/
def missItemDB : DB :=
  { emptyDB with
    items := [⟨1, 0, 10⟩],
    parties := [⟨1, 0, 0, false⟩],
    sos := [⟨1, "SO-202501-0001", 1, 1, "DISPATCHED"⟩],
    challans := [⟨1, "DC-202501-0001", 1, "OPEN"⟩],
    challanLines := [⟨1, 1, 2⟩, ⟨1, 99, 4⟩] }

/-- A v2 invoice of total 500 (one line, no GST/discount), unpaid, OPEN. -/
def payDB : DB :=
  { emptyDB with
    invoices := [⟨1, "INV-202501-0001", 1, 1, 1, 0, "OPEN"⟩],
    invoiceLines := [⟨1, 1, 1, 500, 0, 0⟩] }

/-- The `payDB` state after `add_payment` of the full 500: the payment row is
there, the stored status is still OPEN. -/
def payDBAfter : DB :=
  { payDB with payments := [⟨1, some 1, 500⟩] }

/-- A stored invoice number in which the period prefix `INV-202501-` occurs
twice — `replace` deletes both copies, the trailing suffix parses for
neither reading the claim describes. -/
def numTrickDB : DB :=
  { emptyDB with
    invoices := [⟨1, "INV-202501-INV-202501-0007", 1, 1, 1, 0, "OPEN"⟩] }

/-- Two invoices numbered 0001 and 0003 in period 202501 (the claim's own
numbering example). -/
def numDB : DB :=
  { emptyDB with
    invoices := [⟨1, "INV-202501-0001", 1, 1, 1, 0, "OPEN"⟩,
                 ⟨2, "INV-202501-0003", 2, 2, 1, 0, "OPEN"⟩] }

/-- The claim's invoice-totals example: lines (qty 2, rate 100, gst 12,
disc 10) and (qty 1, rate 50, gst 0, disc 0) on invoice 1. -/
def totremDB : DB :=
  { emptyDB with
    invoiceLines := [⟨1, 1, 2, 100, 12, 10⟩, ⟨1, 2, 1, 50, 0, 0⟩] }

/-- A discount override of 20% for party 1 on item 1 (witness state for the
pricing resolver), plus an out-of-range override of 150% on item 2. -/
def ppDB : List PartyPrice := [⟨1, 1, 20⟩, ⟨1, 2, 150⟩]

/-- A v1 invoice of total 500, unpaid (witness state for status derivation). -/
def v1DB : AppV1.DB :=
  { stocks := [⟨1, 1, 10⟩],
    invoices := [⟨1, 1, 1, "OPEN"⟩],
    invoiceLines := [⟨1, 1, 1, 500, 0⟩],
    payments := [] }

/-! # Helper lemmas -/

theorem find?_append_some {α : Type} {p : α → Bool} {l1 l2 : List α} {a : α}
    (h : l1.find? p = some a) : (l1 ++ l2).find? p = some a := by
  simp [List.find?_append, h]

theorem find?_append_none {α : Type} {p : α → Bool} {l1 l2 : List α}
    (h : l1.find? p = none) : (l1 ++ l2).find? p = l2.find? p := by
  simp [List.find?_append, h]

theorem find?_map_of_pred_inv {α : Type} (f : α → α) (p : α → Bool)
    (hf : ∀ a, p (f a) = p a) : ∀ l : List α,
    (l.map f).find? p = (l.find? p).map f := by
  intro l
  induction l with
  | nil => rfl
  | cons a t ih =>
    simp only [List.map_cons, List.find?_cons, hf a]
    cases hpa : p a <;> simp [ih]

theorem findStock_setStockQty (w i : Nat) (q : ℤ) : ∀ l : List Stock,
    findStock (setStockQty w i q l) w i =
      (findStock l w i).map (fun st => { st with qty := q }) := by
  intro l
  induction l with
  | nil => rfl
  | cons st rest ih =>
    by_cases h : (st.warehouse_id == w && st.item_id == i) = true
    · simp [setStockQty, findStock, List.find?_cons, h]
    · simp only [setStockQty, if_neg h]
      simp only [findStock, List.find?_cons, h] at ih ⊢
      simp only [Bool.false_eq_true] at h
      simp [h, ih]

theorem findStock_setStockQty_ne (w i w' i' : Nat) (q : ℤ)
    (hne : ¬(w = w' ∧ i = i')) : ∀ l : List Stock,
    findStock (setStockQty w i q l) w' i' = findStock l w' i' := by
  intro l
  induction l with
  | nil => rfl
  | cons st rest ih =>
    by_cases h : (st.warehouse_id == w && st.item_id == i) = true
    · have hw : st.warehouse_id = w ∧ st.item_id = i := by
        simpa [Bool.and_eq_true, beq_iff_eq] using h
      have hmiss : (st.warehouse_id == w' && st.item_id == i') = false := by
        rcases hw with ⟨hw1, hw2⟩
        subst hw1; subst hw2
        by_contra hcon
        simp only [Bool.not_eq_false, Bool.and_eq_true, beq_iff_eq] at hcon
        exact hne ⟨hcon.1, hcon.2⟩
      simp [setStockQty, findStock, List.find?_cons, h, hmiss]
    · simp only [setStockQty, if_neg h]
      simp only [findStock, List.find?_cons] at ih ⊢
      cases hm : (st.warehouse_id == w' && st.item_id == i') <;> simp [hm, ih]

theorem findStock_setStockQty_isSome (w i w' i' : Nat) (q : ℤ)
    (l : List Stock) :
    (findStock (setStockQty w i q l) w' i').isSome =
      (findStock l w' i').isSome := by
  by_cases hp : w = w' ∧ i = i'
  · rcases hp with ⟨h1, h2⟩
    subst h1; subst h2
    rw [findStock_setStockQty]
    cases findStock l w i <;> rfl
  · rw [findStock_setStockQty_ne _ _ _ _ _ hp]

theorem mem_setStockQty {w i : Nat} {q : ℤ} :
    ∀ {l : List Stock} {st : Stock}, st ∈ setStockQty w i q l →
      st ∈ l ∨ st.qty = q := by
  intro l
  induction l with
  | nil => intro st h; simp [setStockQty] at h
  | cons hd rest ih =>
    intro st h
    by_cases hc : (hd.warehouse_id == w && hd.item_id == i) = true
    · simp only [setStockQty, if_pos hc, List.mem_cons] at h
      rcases h with h | h
      · right; rw [h]
      · left; exact List.mem_cons_of_mem hd h
    · simp only [setStockQty, if_neg hc, List.mem_cons] at h
      rcases h with h | h
      · left; rw [h]; exact List.mem_cons_self hd rest
      · rcases ih h with h2 | h2
        · left; exact List.mem_cons_of_mem hd h2
        · right; exact h2

theorem nonneg_setStockQty {w i : Nat} {q : ℤ} (hq : 0 ≤ q)
    {l : List Stock} (hl : ∀ st ∈ l, 0 ≤ st.qty) :
    ∀ st ∈ setStockQty w i q l, 0 ≤ st.qty := by
  intro st hst
  rcases mem_setStockQty hst with h | h
  · exact hl st h
  · rw [h]; exact hq

theorem foldl_max_id_init_le : ∀ (l : List Challan) (a : Nat),
    a ≤ l.foldl (fun m c => max m c.id) a := by
  intro l
  induction l with
  | nil => intro a; exact Nat.le_refl a
  | cons hd tl ih =>
    intro a
    exact le_trans (Nat.le_max_left a hd.id) (ih (max a hd.id))

theorem foldl_max_id_mem_le : ∀ (l : List Challan) (a : Nat) (c : Challan),
    c ∈ l → c.id ≤ l.foldl (fun m c => max m c.id) a := by
  intro l
  induction l with
  | nil => intro a c hc; simp at hc
  | cons hd tl ih =>
    intro a c hc
    rcases List.mem_cons.1 hc with h | h
    · subst h
      exact le_trans (Nat.le_max_right a c.id) (foldl_max_id_init_le tl _)
    · exact ih (max a hd.id) c h

theorem findChallan_fresh (db : DB) :
    db.challans.find? (fun c => c.id == freshChallanId db) = none := by
  rw [List.find?_eq_none]
  intro c hc
  have h := foldl_max_id_mem_le db.challans 0 c hc
  simp only [beq_iff_eq, freshChallanId]
  omega

theorem get_stock_spec (c p : DB) (w i : Nat) :
    (∃ st, findStock p.stocks w i = some st ∧ get_stock c p w i = (st.qty, c, p)) ∨
      (findStock p.stocks w i = none ∧
        get_stock c p w i =
          (0, { p with stocks := p.stocks ++ [⟨w, i, 0⟩] },
            { p with stocks := p.stocks ++ [⟨w, i, 0⟩] })) := by
  cases h : findStock p.stocks w i with
  | some st => exact Or.inl ⟨st, rfl, by simp [get_stock, h]⟩
  | none => exact Or.inr ⟨rfl, by simp [get_stock, h]⟩

theorem challanLoop_proj {γ : Type} (f : DB → γ)
    (hs : ∀ (d : DB) (s : List Stock), f { d with stocks := s } = f d)
    (hc : ∀ (d : DB) (cl : List ChallanLine), f { d with challanLines := cl } = f d)
    (wh dcId : Nat) :
    ∀ (lines : List SalesOrderLine) (committed pending : DB),
      f committed = f pending →
      f (resultDB (challanLoop wh dcId lines committed pending)) = f pending := by
  intro lines
  induction lines with
  | nil => intro c p h; simp [challanLoop, resultDB]
  | cons ln rest ih =>
    intro c p h
    rcases get_stock_spec c p wh ln.item_id with ⟨st, _, hgs⟩ | ⟨_, hgs⟩
    · simp only [challanLoop, hgs]
      by_cases hlt : st.qty < ln.qty
      · simp [hlt, resultDB, h]
      · simp only [if_neg hlt]
        have h2 : f { p with
            stocks := setStockQty wh ln.item_id (st.qty - ln.qty) p.stocks,
            challanLines := p.challanLines ++ [⟨dcId, ln.item_id, ln.qty⟩] } = f p := by
          exact (hs { p with challanLines := p.challanLines ++ [⟨dcId, ln.item_id, ln.qty⟩] }
              (setStockQty wh ln.item_id (st.qty - ln.qty) p.stocks)).trans (hc p _)
        exact (ih c _ (h.trans h2.symm)).trans h2
    · simp only [challanLoop, hgs]
      have hApp : f { p with stocks := p.stocks ++ [⟨wh, ln.item_id, 0⟩] } = f p := hs p _
      by_cases hlt : (0 : ℤ) < ln.qty
      · simp only [if_pos hlt, resultDB]
        exact hApp
      · simp only [if_neg hlt]
        have h2 : f { p with
            stocks := setStockQty wh ln.item_id (0 - ln.qty)
              (p.stocks ++ [⟨wh, ln.item_id, 0⟩]),
            challanLines := p.challanLines ++ [⟨dcId, ln.item_id, ln.qty⟩] } = f p := by
          exact (hs { p with challanLines := p.challanLines ++ [⟨dcId, ln.item_id, ln.qty⟩] }
              (setStockQty wh ln.item_id (0 - ln.qty)
                (p.stocks ++ [⟨wh, ln.item_id, 0⟩]))).trans (hc p _)
        exact (ih _ _ (hApp.trans h2.symm)).trans h2

theorem challanLoop_nonneg (wh dcId : Nat) :
    ∀ (lines : List SalesOrderLine) (committed pending : DB),
      (∀ st ∈ committed.stocks, 0 ≤ st.qty) →
      (∀ st ∈ pending.stocks, 0 ≤ st.qty) →
      ∀ st ∈ (resultDB (challanLoop wh dcId lines committed pending)).stocks,
        0 ≤ st.qty := by
  intro lines
  induction lines with
  | nil => intro c p hc hp; simpa [challanLoop, resultDB] using hp
  | cons ln rest ih =>
    intro c p hc hp
    rcases get_stock_spec c p wh ln.item_id with ⟨st, hfs, hgs⟩ | ⟨hfs, hgs⟩
    · simp only [challanLoop, hgs]
      by_cases hlt : st.qty < ln.qty
      · simpa [hlt, resultDB] using hc
      · simp only [if_neg hlt]
        apply ih c _ hc
        intro s hs
        exact nonneg_setStockQty (by omega) hp s hs
    · simp only [challanLoop, hgs]
      have happ : ∀ s ∈ p.stocks ++ [(⟨wh, ln.item_id, 0⟩ : Stock)], 0 ≤ s.qty := by
        intro s hs
        rcases List.mem_append.1 hs with h | h
        · exact hp s h
        · simp at h; rw [h]
      by_cases hlt : (0 : ℤ) < ln.qty
      · simpa [hlt, resultDB] using happ
      · simp only [if_neg hlt]
        apply ih _ _ happ
        intro s hs
        exact nonneg_setStockQty (by omega) happ s hs

theorem challanLoop_error_committed (wh dcId : Nat) :
    ∀ (lines : List SalesOrderLine) (committed pending : DB),
      (∀ l ∈ lines, (findStock pending.stocks wh l.item_id).isSome) →
      ∀ e db2, challanLoop wh dcId lines committed pending = .error (e, db2) →
        e = .insufficientStock ∧ db2 = committed := by
  intro lines
  induction lines with
  | nil => intro c p _ e db2 h; simp [challanLoop] at h
  | cons ln rest ih =>
    intro c p hpres e db2 h
    rcases get_stock_spec c p wh ln.item_id with ⟨st, hfs, hgs⟩ | ⟨hfs, hgs⟩
    · simp only [challanLoop, hgs] at h
      by_cases hlt : st.qty < ln.qty
      · simp only [if_pos hlt, Except.error.injEq, Prod.mk.injEq] at h
        exact ⟨h.1.symm, h.2.symm⟩
      · simp only [if_neg hlt] at h
        apply ih c _ _ e db2 h
        intro l hl
        rw [findStock_setStockQty_isSome]
        exact hpres l (List.mem_cons_of_mem ln hl)
    · exfalso
      have := hpres ln (List.mem_cons_self ln rest)
      rw [hfs] at this
      simp at this

theorem challanLoop_error_kind (wh dcId : Nat) :
    ∀ (lines : List SalesOrderLine) (committed pending : DB) (e : Err)
      (db2 : DB),
      challanLoop wh dcId lines committed pending = .error (e, db2) →
      e = .insufficientStock := by
  intro lines
  induction lines with
  | nil => intro c p e db2 h; simp [challanLoop] at h
  | cons ln rest ih =>
    intro c p e db2 h
    rcases get_stock_spec c p wh ln.item_id with ⟨st, _, hgs⟩ | ⟨_, hgs⟩
    · simp only [challanLoop, hgs] at h
      by_cases hlt : st.qty < ln.qty
      · simp only [if_pos hlt, Except.error.injEq, Prod.mk.injEq] at h
        exact h.1.symm
      · simp only [if_neg hlt] at h
        exact ih _ _ e db2 h
    · simp only [challanLoop, hgs] at h
      by_cases hlt : (0 : ℤ) < ln.qty
      · simp only [if_pos hlt, Except.error.injEq, Prod.mk.injEq] at h
        exact h.1.symm
      · simp only [if_neg hlt] at h
        exact ih _ _ e db2 h

theorem returnsLoop_proj {γ : Type} (f : DB → γ)
    (hs : ∀ (d : DB) (s : List Stock), f { d with stocks := s } = f d) (wh : Nat) :
    ∀ (lines : List ReturnLine) (pending : DB),
      f (returnsLoop wh lines pending) = f pending := by
  intro lines
  induction lines with
  | nil => intro p; simp [returnsLoop]
  | cons ln rest ih =>
    intro p
    rcases get_stock_spec p p wh ln.item_id with ⟨st, _, hgs⟩ | ⟨_, hgs⟩
    · simp only [returnsLoop, hgs]
      exact (ih _).trans (hs p _)
    · simp only [returnsLoop, hgs]
      exact (ih _).trans ((hs { p with stocks := p.stocks ++ [⟨wh, ln.item_id, 0⟩] }
        _).trans (hs p _))

theorem returnsLoop_nonneg (wh : Nat) :
    ∀ (lines : List ReturnLine) (pending : DB),
      (∀ st ∈ pending.stocks, 0 ≤ st.qty) →
      (∀ l ∈ lines, 0 ≤ l.qty) →
      ∀ st ∈ (returnsLoop wh lines pending).stocks, 0 ≤ st.qty := by
  intro lines
  induction lines with
  | nil => intro p hp _; simpa [returnsLoop] using hp
  | cons ln rest ih =>
    intro p hp hl
    have hlq : 0 ≤ ln.qty := hl ln (List.mem_cons_self ln rest)
    have hrest : ∀ l ∈ rest, 0 ≤ l.qty := fun l h => hl l (List.mem_cons_of_mem ln h)
    rcases get_stock_spec p p wh ln.item_id with ⟨st, hfs, hgs⟩ | ⟨hfs, hgs⟩
    · simp only [returnsLoop, hgs]
      apply ih _ _ hrest
      have hstq : 0 ≤ st.qty := hp st (List.mem_of_find?_eq_some hfs)
      intro s hs
      exact nonneg_setStockQty (by omega) hp s hs
    · simp only [returnsLoop, hgs]
      apply ih _ _ hrest
      have happ : ∀ s ∈ p.stocks ++ [(⟨wh, ln.item_id, 0⟩ : Stock)], 0 ≤ s.qty := by
        intro s hs
        rcases List.mem_append.1 hs with h | h
        · exact hp s h
        · simp at h; rw [h]
      intro s hs
      exact nonneg_setStockQty (by omega) happ s hs

theorem foldl_totalsStep : ∀ (l : List InvoiceLine) (a b : ℚ),
    l.foldl totalsStep (a, b) =
      (a + (l.map lineTaxable).sum, b + (l.map lineGst).sum) := by
  intro l
  induction l with
  | nil => intro a b; simp
  | cons ln t ih =>
    intro a b
    simp only [List.foldl_cons, List.map_cons, List.sum_cons]
    rw [show totalsStep (a, b) ln = (a + lineTaxable ln, b + lineGst ln) from rfl, ih]
    rw [Prod.mk.injEq]
    constructor <;> ring

theorem foldl_paidStep : ∀ (l : List Payment) (a : ℚ),
    l.foldl paidStep a = a + (l.map Payment.amount).sum := by
  intro l
  induction l with
  | nil => intro a; simp
  | cons pm t ih =>
    intro a
    simp only [List.foldl_cons, List.map_cons, List.sum_cons]
    rw [show paidStep a pm = a + pm.amount from rfl, ih, add_assoc]

theorem copyLines_invoice_id (items : List Item) (pps : List PartyPrice)
    (pid invId : Nat) (lines : List ChallanLine) :
    ∀ l ∈ copyLines items pps pid invId lines, l.invoice_id = invId := by
  intro l hl
  rcases List.mem_filterMap.1 hl with ⟨a, _, hfa⟩
  cases hit : findItem items a.item_id with
  | none => rw [hit] at hfa; simp at hfa
  | some it =>
    rw [hit] at hfa
    simp only [Option.some.injEq] at hfa
    rw [← hfa]

theorem copyLines_foldl_totalsStep (items : List Item) (pps : List PartyPrice)
    (pid invId : Nat) :
    ∀ (lines : List ChallanLine) (acc : ℚ × ℚ),
      (copyLines items pps pid invId lines).foldl totalsStep acc =
        lines.foldl (projectedStep items pps pid) acc := by
  intro lines
  induction lines with
  | nil => intro acc; rfl
  | cons ln rest ih =>
    intro acc
    simp only [copyLines, List.filterMap_cons] at ih ⊢
    cases hit : findItem items ln.item_id with
    | none =>
      simp only [List.foldl_cons]
      rw [show projectedStep items pps pid acc ln = acc by
        simp [projectedStep, hit]]
      exact ih acc
    | some it =>
      simp only [List.foldl_cons]
      rw [show totalsStep acc
          ⟨invId, it.id, ln.qty, (apply_party_price pps pid it).1, it.gst_percent,
            (apply_party_price pps pid it).2⟩ =
          projectedStep items pps pid acc ln by
        simp [totalsStep, projectedStep, hit]]
      exact ih _

theorem totalsPair_copyLines (items : List Item) (pps : List PartyPrice)
    (pid invId : Nat) (lines : List ChallanLine) :
    totalsPair (copyLines items pps pid invId lines) =
      projectedPair items pps pid lines :=
  copyLines_foldl_totalsStep items pps pid invId lines (0, 0)

theorem copyLines_filter_present (items : List Item) (pps : List PartyPrice)
    (pid invId : Nat) :
    ∀ lines : List ChallanLine,
      copyLines items pps pid invId lines =
        copyLines items pps pid invId
          (lines.filter (fun l => (findItem items l.item_id).isSome)) := by
  intro lines
  induction lines with
  | nil => rfl
  | cons ln rest ih =>
    simp only [copyLines, List.filterMap_cons, List.filter_cons] at ih ⊢
    cases hit : findItem items ln.item_id with
    | none => simp [hit, ih]
    | some it => simp [hit, List.filterMap_cons, ih]

theorem projectedPair_foldl_filter (items : List Item) (pps : List PartyPrice)
    (pid : Nat) :
    ∀ (lines : List ChallanLine) (acc : ℚ × ℚ),
      lines.foldl (projectedStep items pps pid) acc =
        (lines.filter (fun l => (findItem items l.item_id).isSome)).foldl
          (projectedStep items pps pid) acc := by
  intro lines
  induction lines with
  | nil => intro acc; rfl
  | cons ln rest ih =>
    intro acc
    simp only [List.filter_cons]
    cases hit : findItem items ln.item_id with
    | none =>
      simp only [List.foldl_cons, Option.isSome_none, Bool.false_eq_true, if_neg]
      rw [show projectedStep items pps pid acc ln = acc by simp [projectedStep, hit]]
      exact ih acc
    | some it =>
      simp only [Option.isSome_some, if_pos, List.foldl_cons]
      exact ih _

theorem projectedTotal_filter_present (items : List Item) (pps : List PartyPrice)
    (pid : Nat) (lines : List ChallanLine) :
    projectedTotal items pps pid lines =
      projectedTotal items pps pid
        (lines.filter (fun l => (findItem items l.item_id).isSome)) := by
  unfold projectedTotal projectedPair
  rw [← projectedPair_foldl_filter]

theorem replaceAllAux_no_occur (pat : List Char) :
    ∀ s : List Char, containsSub pat s = false → replaceAllAux pat s = s := by
  intro s
  induction s with
  | nil => intro _; simp [replaceAllAux]
  | cons c rest ih =>
    intro h
    simp only [containsSub, Bool.or_eq_false_iff] at h
    rw [replaceAllAux]
    rw [dif_neg]
    · rw [ih h.2]
    · intro hcon
      rw [hcon.2] at h
      simp at h

theorem replaceAllAux_prefix (pat : List Char) (hne : pat ≠ []) :
    ∀ rest2 : List Char, containsSub pat rest2 = false →
      replaceAllAux pat (pat ++ rest2) = rest2 := by
  intro rest2 hocc
  cases hp : pat with
  | nil => exact absurd hp hne
  | cons q pt =>
    rw [show (q :: pt) ++ rest2 = q :: (pt ++ rest2) from rfl]
    rw [replaceAllAux]
    rw [dif_pos]
    · rw [show q :: (pt ++ rest2) = (q :: pt) ++ rest2 from rfl]
      rw [show ((q :: pt) ++ rest2).drop (q :: pt).length = rest2 from
        List.drop_left (q :: pt) rest2]
      exact replaceAllAux_no_occur (q :: pt) rest2 (hp ▸ hocc)
    · constructor
      · simp
      · rw [List.isPrefixOf_iff_prefix]
        exact ⟨rest2, rfl⟩

theorem extractedNums_eq_trailingNums (p : List Char) (hne : p ≠ [])
    (existing : List String)
    (hocc : ∀ x ∈ existing, p.isPrefixOf x.data →
      containsSub p (x.data.drop p.length) = false) :
    extractedNums p existing = trailingNums p existing := by
  unfold extractedNums trailingNums
  apply List.filterMap_congr
  intro x hx
  by_cases hpre : p.isPrefixOf x.data
  · have hx0 : x ≠ "" := by
      intro hxe
      subst hxe
      rw [List.isPrefixOf_iff_prefix] at hpre
      have : p = [] := List.prefix_nil.1 hpre
      exact hne this
    rw [if_pos ⟨hx0, hpre⟩, if_pos hpre]
    have hsplit : p ++ x.data.drop p.length = x.data := by
      rw [← List.prefix_iff_eq_append]
      exact (List.isPrefixOf_iff_prefix).1 hpre
    rw [← hsplit, replaceAllAux_prefix p hne _ (hocc x hx hpre)]
    rw [show (p ++ x.data.drop p.length).drop p.length = x.data.drop p.length from
      List.drop_left p _]
  · rw [if_neg (by intro hcon; exact hpre hcon.2), if_neg hpre]

/-! # Claim theorems -/

/-- C5: for every invoice, `invoice_totals` returns subtotal = Σ taxable
(taxable = qty×rate − (qty×rate)×discount/100), gst = Σ taxable×gst/100,
total = subtotal + gst, paid = Σ linked payment amounts, balance = total −
paid, with 2-decimal rounding applied to the five aggregates only, never per
line; on the claim's example lines the result is (230, 21.6, 251.6, 0,
251.6). -/
theorem invoice_totals_spec :
    (∀ (db : DB) (invoice_id : Nat),
      invoice_totals db invoice_id =
        { subtotal := round2 (((db.invoiceLines.filter
              (fun l => l.invoice_id == invoice_id)).map lineTaxable).sum),
          gst := round2 (((db.invoiceLines.filter
              (fun l => l.invoice_id == invoice_id)).map lineGst).sum),
          total := round2 ((((db.invoiceLines.filter
              (fun l => l.invoice_id == invoice_id)).map lineTaxable).sum) +
            (((db.invoiceLines.filter
              (fun l => l.invoice_id == invoice_id)).map lineGst).sum)),
          paid := round2 (((db.payments.filter
              (fun p => p.invoice_id == some invoice_id)).map Payment.amount).sum),
          balance := round2 (((((db.invoiceLines.filter
              (fun l => l.invoice_id == invoice_id)).map lineTaxable).sum) +
            (((db.invoiceLines.filter
              (fun l => l.invoice_id == invoice_id)).map lineGst).sum)) -
            (((db.payments.filter
              (fun p => p.invoice_id == some invoice_id)).map Payment.amount).sum)) })
    ∧ invoice_totals totremDB 1 =
        { subtotal := 230, gst := 21.6, total := 251.6, paid := 0,
          balance := 251.6 } := by
  constructor
  · intro db invoice_id
    simp only [invoice_totals, totalsPair, foldl_totalsStep, foldl_paidStep,
      zero_add]
  · with_unfolding_all decide

/-- C7: `apply_party_price` returns, when a PartyPrice row exists for the
pair, the discount clamped to [0,100] and
rate = round(sale_price × (1 − discount/100), 2); with no row it returns
(sale_price, 0).  The function is pure — it only reads the PartyPrice
table. -/
theorem apply_party_price_spec :
    ∀ (pps : List PartyPrice) (party_id : Nat) (item : Item),
      (pps.find? (fun pp => pp.party_id == party_id && pp.item_id == item.id) =
          none →
        apply_party_price pps party_id item = (item.sale_price, 0))
      ∧ (∀ pp,
          pps.find? (fun pp => pp.party_id == party_id && pp.item_id == item.id) =
            some pp →
          apply_party_price pps party_id item =
            (round2 (item.sale_price *
                (1 - max 0 (min 100 pp.discount_percent) / 100)),
              max 0 (min 100 pp.discount_percent))
          ∧ 0 ≤ max 0 (min 100 pp.discount_percent)
          ∧ max 0 (min 100 pp.discount_percent) ≤ 100) := by
  intro pps party_id item
  constructor
  · intro h
    simp [apply_party_price, h]
  · intro pp h
    refine ⟨by simp [apply_party_price, h], le_max_left 0 _, ?_⟩
    exact max_le (by norm_num) (min_le_left _ _)

/-- C7 witness: party 1 has a 20% override on item 1 (sale price 50) and an
out-of-range 150% override on item 2; the resolver returns (40, 20) and —
after clamping — (0, 100). -/
theorem apply_party_price_witness :
    apply_party_price ppDB 1 ⟨1, 0, 50⟩ = (40, 20) ∧
      apply_party_price ppDB 1 ⟨2, 0, 50⟩ = (0, 100) := by
  constructor
  · have h := (apply_party_price_spec ppDB 1 ⟨1, 0, 50⟩).2 ⟨1, 1, 20⟩
      (by with_unfolding_all decide)
    rw [h.1]
    with_unfolding_all decide
  · have h := (apply_party_price_spec ppDB 1 ⟨2, 0, 50⟩).2 ⟨1, 2, 150⟩
      (by with_unfolding_all decide)
    rw [h.1]
    with_unfolding_all decide

/-- C10: a challan line whose item no longer resolves is silently skipped by
`invoice_create` — both in the credit-control projection and in the line
copy: the projection and the copied lines are unchanged by dropping such
lines, the invoice is created without them, and no not-found error is ever
raised once the challan/order/party lookups have succeeded. -/
theorem invoice_create_skips_missing_items :
    (∀ (items : List Item) (pps : List PartyPrice) (pid invId : Nat)
        (lines : List ChallanLine),
      copyLines items pps pid invId lines =
        copyLines items pps pid invId
          (lines.filter (fun l => (findItem items l.item_id).isSome)))
    ∧ (∀ (items : List Item) (pps : List PartyPrice) (pid : Nat)
        (lines : List ChallanLine),
      projectedTotal items pps pid lines =
        projectedTotal items pps pid
          (lines.filter (fun l => (findItem items l.item_id).isSome)))
    ∧ (∀ (db : DB) (dc_id : Nat) (today d : ℤ) (per : String)
        (dc : Challan) (so : SalesOrder) (party : Party),
      findChallan db dc_id = some dc → dc.status = "OPEN" →
      findSO db dc.so_id = some so → findParty db so.party_id = some party →
      ∀ e db2, invoice_create db dc_id today d per = .error (e, db2) →
        e ≠ .notFound)
    ∧ (∀ (db : DB) (dc_id : Nat) (today d : ℤ) (per : String)
        (dc : Challan) (so : SalesOrder) (party : Party) (db' : DB),
      findChallan db dc_id = some dc → dc.status = "OPEN" →
      findSO db dc.so_id = some so → findParty db so.party_id = some party →
      invoice_create db dc_id today d per = .ok db' →
      db'.invoiceLines = db.invoiceLines ++
        copyLines db.items db.partyPrices party.id (freshInvoiceId db)
          (((db.challanLines.filter (fun l => l.dc_id == dc_id)).filter
            (fun l => (findItem db.items l.item_id).isSome)))) := by
  refine ⟨copyLines_filter_present, projectedTotal_filter_present, ?_, ?_⟩
  · intro db dc_id today d per dc so party hdc hst hso hparty e db2 herr
    simp only [invoice_create, hdc, hso, hparty] at herr
    split_ifs at herr with h1 h2 h3 h4
    · exact absurd hst h1
    · simp only [Except.error.injEq, Prod.mk.injEq] at herr
      rw [← herr.1]; intro hcon; cases hcon
    · simp only [Except.error.injEq, Prod.mk.injEq] at herr
      rw [← herr.1]; intro hcon; cases hcon
    · simp only [Except.error.injEq, Prod.mk.injEq] at herr
      rw [← herr.1]; intro hcon; cases hcon
  · intro db dc_id today d per dc so party db' hdc hst hso hparty hok
    simp only [invoice_create, hdc, hso, hparty] at hok
    split_ifs at hok with h1 h2 h3 h4
    simp only [Except.ok.injEq] at hok
    rw [← hok, ← copyLines_filter_present]

/-- C10 witness: on `missItemDB` (items 1 and 99 on the challan, item 99
gone) invoice creation succeeds and the created invoice carries only the
line for item 1. -/
theorem invoice_create_skips_missing_items_witness :
    (resultDB (invoice_create missItemDB 1 0 0 "202501")).invoiceLines =
      [⟨1, 1, 2, 10, 0, 0⟩] := by
  have hok : invoice_create missItemDB 1 0 0 "202501" =
      .ok (resultDB (invoice_create missItemDB 1 0 0 "202501")) := by
    with_unfolding_all decide
  have h := invoice_create_skips_missing_items.2.2.2 missItemDB 1 0 0 "202501"
    ⟨1, "DC-202501-0001", 1, "OPEN"⟩ ⟨1, "SO-202501-0001", 1, 1, "DISPATCHED"⟩
    ⟨1, 0, 0, false⟩ _ (by with_unfolding_all decide) rfl
    (by with_unfolding_all decide) (by with_unfolding_all decide) hok
  rw [h]
  with_unfolding_all decide

/-- C8: for any challan that `invoice_create` successfully invoices, the
credit-control projection agrees — up to the final 2-decimal aggregate
rounding — with `invoice_totals` of the created invoice: both re-resolve
the price per challan line from the same Item/PartyPrice tables.  The
freshness hypothesis on `invoiceLines` says no stray line already uses the
new invoice's id (referential integrity of the autoincrement key). -/
theorem invoice_create_total_refines_projection :
    ∀ (db : DB) (dc_id : Nat) (today d : ℤ) (per : String)
      (dc : Challan) (so : SalesOrder) (party : Party) (db' : DB),
      findChallan db dc_id = some dc →
      findSO db dc.so_id = some so →
      findParty db so.party_id = some party →
      (∀ l ∈ db.invoiceLines, l.invoice_id ≠ freshInvoiceId db) →
      invoice_create db dc_id today d per = .ok db' →
      (invoice_totals db' (freshInvoiceId db)).total =
        round2 (projectedTotal db.items db.partyPrices party.id
          (db.challanLines.filter (fun l => l.dc_id == dc_id))) := by
  intro db dc_id today d per dc so party db' hdc hso hparty hfk hok
  simp only [invoice_create, hdc, hso, hparty] at hok
  split_ifs at hok with h1 h2 h3 h4
  simp only [Except.ok.injEq] at hok
  rw [← hok]
  simp only [invoice_totals]
  rw [List.filter_append]
  rw [show db.invoiceLines.filter
      (fun l => l.invoice_id == freshInvoiceId db) = [] by
    rw [List.filter_eq_nil_iff]
    intro a ha
    simpa using hfk a ha]
  rw [List.nil_append]
  rw [List.filter_eq_self.2 (by
    intro a ha
    have := copyLines_invoice_id db.items db.partyPrices party.id
      (freshInvoiceId db) (db.challanLines.filter (fun l => l.dc_id == dc_id))
      a ha
    simpa using this)]
  rw [totalsPair_copyLines]
  rfl

/-- C8 witness: on `okInvDB` (one challan line, qty 2 at sale price 10) the
created invoice's total equals the rounded projection, both being 20. -/
theorem invoice_create_total_refines_projection_witness :
    (invoice_totals (resultDB (invoice_create okInvDB 1 0 0 "202501")) 1).total =
        round2 (projectedTotal okInvDB.items okInvDB.partyPrices 1
          (okInvDB.challanLines.filter (fun l => l.dc_id == 1))) ∧
      (invoice_totals (resultDB (invoice_create okInvDB 1 0 0 "202501")) 1).total
        = 20 := by
  constructor
  · exact invoice_create_total_refines_projection okInvDB 1 0 0 "202501"
      ⟨1, "DC-202501-0001", 1, "OPEN"⟩ ⟨1, "SO-202501-0001", 1, 1, "DISPATCHED"⟩
      ⟨1, 0, 0, false⟩ _ (by with_unfolding_all decide)
      (by with_unfolding_all decide) (by with_unfolding_all decide)
      (by with_unfolding_all decide) (by with_unfolding_all decide)
  · with_unfolding_all decide

theorem qtyView_append_zero (l : List Stock) (w i : Nat)
    (h : findStock l w i = none) (w' i' : Nat) :
    ((findStock (l ++ [⟨w, i, 0⟩]) w' i').map Stock.qty).getD 0 =
      ((findStock l w' i').map Stock.qty).getD 0 := by
  cases hfs2 : findStock l w' i' with
  | some st =>
    rw [show findStock (l ++ [⟨w, i, 0⟩]) w' i' = some st from
      find?_append_some hfs2]
  | none =>
    rw [show findStock (l ++ [⟨w, i, 0⟩]) w' i' =
        findStock [⟨w, i, 0⟩] w' i' from find?_append_none hfs2]
    cases hb : ((⟨w, i, 0⟩ : Stock).warehouse_id == w' &&
        (⟨w, i, 0⟩ : Stock).item_id == i') <;>
      simp [findStock, List.find?, hb]

theorem qtyView_set (l : List Stock) (w i : Nat) (q : ℤ) (st : Stock)
    (h : findStock l w i = some st) :
    ((findStock (setStockQty w i q l) w i).map Stock.qty).getD 0 = q := by
  rw [findStock_setStockQty, h]
  rfl

/-- C1 counterexample: posting an OPEN return note whose line has quantity
−5 against a zero-stock row SUCCEEDS and leaves the stored quantity at −5 —
no insufficient-stock failure, breaking the claimed invariant for the
return-note-posting mutation. -/
theorem returns_post_negative_counterexample :
    stockQtyView retDB 1 1 = 0 ∧
      returns_post retDB 1 = .ok retDBAfter ∧
      stockQtyView retDBAfter 1 1 = -5 := by
  with_unfolding_all decide

/-- C1 (amended): manual `stock_adjust` enforces the invariant — an
adjustment that would drive the quantity below 0 fails with the
insufficient-stock error and leaves every stored quantity unchanged, one
that does not succeeds with the new quantity — and `challan_create`
preserves non-negative stock; `returns_post`, which performs no check,
preserves it only when every posted return line has non-negative
quantity. -/
theorem stock_nonneg_amended :
    (∀ (db : DB) (w i : Nat) (d : ℤ),
      stockQtyView db w i + d < 0 →
      ∃ db2, stock_adjust db w i d = .error (.insufficientStock, db2) ∧
        ∀ w' i', stockQtyView db2 w' i' = stockQtyView db w' i')
    ∧ (∀ (db : DB) (w i : Nat) (d : ℤ),
      0 ≤ stockQtyView db w i + d →
      ∃ db2, stock_adjust db w i d = .ok db2 ∧
        stockQtyView db2 w i = stockQtyView db w i + d)
    ∧ (∀ (db : DB) (w i : Nat) (d : ℤ),
      NonnegStocks db → NonnegStocks (resultDB (stock_adjust db w i d)))
    ∧ (∀ (db : DB) (per : String) (so_id : Nat),
      NonnegStocks db → NonnegStocks (resultDB (challan_create db per so_id)))
    ∧ (∀ (db : DB) (rn_id : Nat),
      NonnegStocks db →
      (∀ l ∈ db.returnLines, l.return_id = rn_id → 0 ≤ l.qty) →
      NonnegStocks (resultDB (returns_post db rn_id))) := by
  refine ⟨?_, ?_, ?_, ?_, ?_⟩
  · intro db w i d hneg
    rcases get_stock_spec db db w i with ⟨st, hfs, hgs⟩ | ⟨hfs, hgs⟩
    · have hview : stockQtyView db w i = st.qty := by
        unfold stockQtyView; rw [hfs]; rfl
      rw [hview] at hneg
      refine ⟨db, ?_, fun w' i' => rfl⟩
      simp only [stock_adjust, hgs]
      rw [if_pos hneg]
    · have hview : stockQtyView db w i = 0 := by
        unfold stockQtyView; rw [hfs]; rfl
      rw [hview] at hneg
      refine ⟨{ db with stocks := db.stocks ++ [⟨w, i, 0⟩] }, ?_, ?_⟩
      · simp only [stock_adjust, hgs]
        rw [if_pos hneg]
      · intro w' i'
        exact qtyView_append_zero db.stocks w i hfs w' i'
  · intro db w i d hpos
    rcases get_stock_spec db db w i with ⟨st, hfs, hgs⟩ | ⟨hfs, hgs⟩
    · have hview : stockQtyView db w i = st.qty := by
        unfold stockQtyView; rw [hfs]; rfl
      rw [hview] at hpos ⊢
      refine ⟨{ db with stocks := setStockQty w i (st.qty + d) db.stocks },
        ?_, ?_⟩
      · simp only [stock_adjust, hgs]
        rw [if_neg (by omega)]
      · exact qtyView_set db.stocks w i (st.qty + d) st hfs
    · have hview : stockQtyView db w i = 0 := by
        unfold stockQtyView; rw [hfs]; rfl
      rw [hview] at hpos ⊢
      have hfind : findStock (db.stocks ++ [⟨w, i, 0⟩]) w i = some ⟨w, i, 0⟩ := by
        rw [show findStock (db.stocks ++ [⟨w, i, 0⟩]) w i =
            findStock [⟨w, i, 0⟩] w i from find?_append_none hfs]
        simp [findStock, List.find?]
      refine ⟨{ db with
        stocks := setStockQty w i (0 + d) (db.stocks ++ [⟨w, i, 0⟩]) }, ?_, ?_⟩
      · simp only [stock_adjust, hgs]
        rw [if_neg (by omega)]
      · exact qtyView_set _ w i (0 + d) _ hfind
  · intro db w i d hnn
    rcases get_stock_spec db db w i with ⟨st, hfs, hgs⟩ | ⟨hfs, hgs⟩
    · simp only [stock_adjust, hgs]
      by_cases hneg : st.qty + d < 0
      · rw [if_pos hneg]; exact hnn
      · rw [if_neg hneg]
        intro s hs
        exact nonneg_setStockQty (by omega) hnn s hs
    · simp only [stock_adjust, hgs]
      have happ : ∀ s ∈ db.stocks ++ [(⟨w, i, 0⟩ : Stock)], 0 ≤ s.qty := by
        intro s hs
        rcases List.mem_append.1 hs with h | h
        · exact hnn s h
        · simp at h; rw [h]
      by_cases hneg : (0 : ℤ) + d < 0
      · rw [if_pos hneg]; exact happ
      · rw [if_neg hneg]
        intro s hs
        exact nonneg_setStockQty (by omega) happ s hs
  · intro db per so_id hnn
    cases hso : findSO db so_id with
    | none => simp only [challan_create, hso]; exact hnn
    | some so =>
      simp only [challan_create, hso]
      by_cases hst : so.status ≠ "APPROVED"
      · rw [if_pos hst]; exact hnn
      · rw [if_neg hst]
        have h := challanLoop_nonneg so.warehouse_id (freshChallanId db)
          (db.soLines.filter (fun l => l.so_id == so_id))
          { db with challans := db.challans ++
              [⟨freshChallanId db, next_no "DC" per db, so_id, "OPEN"⟩] }
          { db with challans := db.challans ++
              [⟨freshChallanId db, next_no "DC" per db, so_id, "OPEN"⟩] }
          hnn hnn
        cases hloop : challanLoop so.warehouse_id (freshChallanId db)
            (db.soLines.filter (fun l => l.so_id == so_id))
            { db with challans := db.challans ++
                [⟨freshChallanId db, next_no "DC" per db, so_id, "OPEN"⟩] }
            { db with challans := db.challans ++
                [⟨freshChallanId db, next_no "DC" per db, so_id, "OPEN"⟩] } with
        | error e =>
          rw [hloop] at h
          exact h
        | ok pending =>
          rw [hloop] at h
          exact h
  · intro db rn_id hnn hql
    cases hrn : findRN db rn_id with
    | none => simp only [returns_post, hrn]; exact hnn
    | some rn =>
      simp only [returns_post, hrn]
      by_cases hst : rn.status ≠ "OPEN"
      · rw [if_pos hst]; exact hnn
      · rw [if_neg hst]
        exact returnsLoop_nonneg rn.warehouse_id
          (db.returnLines.filter (fun l => l.return_id == rn_id)) db hnn
          (by
            intro l hl
            have hm := List.mem_filter.1 hl
            exact hql l hm.1 (by simpa using hm.2))

/-- C1 witness: with quantity 5 on hand, adjust(−6) fails leaving the view
at 5 (and all stocks non-negative), while adjust(−5) succeeds reaching
exactly 0. -/
theorem stock_nonneg_amended_witness :
    NonnegStocks (resultDB (stock_adjust adjDB 1 1 (-6))) ∧
      stockQtyView (resultDB (stock_adjust adjDB 1 1 (-6))) 1 1 = 5 ∧
      stockQtyView (resultDB (stock_adjust adjDB 1 1 (-5))) 1 1 = 0 := by
  refine ⟨stock_nonneg_amended.2.2.1 adjDB 1 1 (-6)
    (by unfold NonnegStocks; with_unfolding_all decide), ?_, ?_⟩
  · with_unfolding_all decide
  · with_unfolding_all decide

/-- C2 counterexample: dispatch failures are not all-or-nothing.  On
`chalDB` (5 wanted, 3 stocked) the aborted dispatch leaves the committed
challan header behind; on `midDB` (line 1 stocked, line 2 never stocked)
the lazy-create commit inside `get_stock` on line 2 also persists line 1's
stock decrement (10 → 5) and its challan line. -/
theorem challan_create_partial_header_counterexample :
    (challan_create chalDB "202501" 1 =
        .error (.insufficientStock, chalDBAfter) ∧
      chalDBAfter.challans = [⟨1, "DC-202501-0001", 1, "OPEN"⟩] ∧
      soStatusView chalDBAfter 1 = some "APPROVED") ∧
    (challan_create midDB "202501" 1 =
        .error (.insufficientStock, midDBAfter) ∧
      midDB.stocks = [⟨1, 1, 10⟩] ∧ midDB.challanLines = [] ∧
      midDBAfter.stocks = [⟨1, 1, 5⟩, ⟨1, 2, 0⟩] ∧
      midDBAfter.challanLines = [⟨1, 1, 5⟩]) := by
  with_unfolding_all decide

/-- C2 (amended): when `challan_create` on an APPROVED order fails, the
error is always insufficient stock, the committed challan header always
survives, and the sales orders (so the order's APPROVED status), invoices
and return notes are always untouched.  When every line's stock row already
exists, the failure state is exactly the input plus that header: no stock
decrement and no challan line is kept.  When a later line's stock row is
missing, however, `get_stock` lazily creates the zero row and commits the
session mid-loop, persisting the earlier lines' stock decrements and
challan lines — the rollback reaches only back to the last commit, as on
`midDB`. -/
theorem challan_create_abort_state :
    (∀ (db : DB) (per : String) (so_id : Nat) (so : SalesOrder),
      findSO db so_id = some so →
      so.status = "APPROVED" →
      ∀ e db2, challan_create db per so_id = .error (e, db2) →
        e = .insufficientStock ∧
        db2.challans = db.challans ++
          [⟨freshChallanId db, next_no "DC" per db, so_id, "OPEN"⟩] ∧
        db2.sos = db.sos ∧ db2.invoices = db.invoices ∧
        db2.returnNotes = db.returnNotes)
    ∧ (∀ (db : DB) (per : String) (so_id : Nat) (so : SalesOrder),
      findSO db so_id = some so →
      so.status = "APPROVED" →
      (∀ l ∈ db.soLines, l.so_id = so_id →
        (findStock db.stocks so.warehouse_id l.item_id).isSome = true) →
      ∀ e db2, challan_create db per so_id = .error (e, db2) →
        e = .insufficientStock ∧
        db2 = { db with challans := db.challans ++
          [⟨freshChallanId db, next_no "DC" per db, so_id, "OPEN"⟩] } ∧
        db2.stocks = db.stocks ∧ db2.challanLines = db.challanLines ∧
        db2.sos = db.sos)
    ∧ (challan_create midDB "202501" 1 =
        .error (.insufficientStock, midDBAfter) ∧
      midDBAfter.stocks = [⟨1, 1, 5⟩, ⟨1, 2, 0⟩] ∧
      midDBAfter.challanLines = [⟨1, 1, 5⟩] ∧
      soStatusView midDBAfter 1 = some "APPROVED") := by
  refine ⟨?_, ?_, ?_⟩
  · intro db per so_id so hso hst e db2 herr
    simp only [challan_create, hso] at herr
    rw [if_neg (by simp [hst])] at herr
    cases hloop : challanLoop so.warehouse_id (freshChallanId db)
        (db.soLines.filter (fun l => l.so_id == so_id))
        { db with challans := db.challans ++
            [⟨freshChallanId db, next_no "DC" per db, so_id, "OPEN"⟩] }
        { db with challans := db.challans ++
            [⟨freshChallanId db, next_no "DC" per db, so_id, "OPEN"⟩] } with
    | error ev =>
      rw [hloop] at herr
      simp only [Except.error.injEq] at herr
      have hev : ev = (e, db2) := herr
      have hkind := challanLoop_error_kind so.warehouse_id (freshChallanId db)
        (db.soLines.filter (fun l => l.so_id == so_id)) _ _ ev.1 ev.2
        (by rw [hloop])
      have hch := challanLoop_proj DB.challans (fun _ _ => rfl) (fun _ _ => rfl)
        so.warehouse_id (freshChallanId db)
        (db.soLines.filter (fun l => l.so_id == so_id))
        { db with challans := db.challans ++
            [⟨freshChallanId db, next_no "DC" per db, so_id, "OPEN"⟩] }
        { db with challans := db.challans ++
            [⟨freshChallanId db, next_no "DC" per db, so_id, "OPEN"⟩] } rfl
      have hsos := challanLoop_proj DB.sos (fun _ _ => rfl) (fun _ _ => rfl)
        so.warehouse_id (freshChallanId db)
        (db.soLines.filter (fun l => l.so_id == so_id))
        { db with challans := db.challans ++
            [⟨freshChallanId db, next_no "DC" per db, so_id, "OPEN"⟩] }
        { db with challans := db.challans ++
            [⟨freshChallanId db, next_no "DC" per db, so_id, "OPEN"⟩] } rfl
      have hinv := challanLoop_proj DB.invoices (fun _ _ => rfl)
        (fun _ _ => rfl) so.warehouse_id (freshChallanId db)
        (db.soLines.filter (fun l => l.so_id == so_id))
        { db with challans := db.challans ++
            [⟨freshChallanId db, next_no "DC" per db, so_id, "OPEN"⟩] }
        { db with challans := db.challans ++
            [⟨freshChallanId db, next_no "DC" per db, so_id, "OPEN"⟩] } rfl
      have hrn := challanLoop_proj DB.returnNotes (fun _ _ => rfl)
        (fun _ _ => rfl) so.warehouse_id (freshChallanId db)
        (db.soLines.filter (fun l => l.so_id == so_id))
        { db with challans := db.challans ++
            [⟨freshChallanId db, next_no "DC" per db, so_id, "OPEN"⟩] }
        { db with challans := db.challans ++
            [⟨freshChallanId db, next_no "DC" per db, so_id, "OPEN"⟩] } rfl
      rw [hloop] at hch hsos hinv hrn
      refine ⟨?_, ?_, ?_, ?_, ?_⟩
      · rw [show e = ev.1 from by rw [hev]]
        exact hkind
      · rw [show db2 = ev.2 from by rw [hev]]
        exact hch
      · rw [show db2 = ev.2 from by rw [hev]]
        exact hsos
      · rw [show db2 = ev.2 from by rw [hev]]
        exact hinv
      · rw [show db2 = ev.2 from by rw [hev]]
        exact hrn
    | ok pending =>
      rw [hloop] at herr
      exact absurd herr (by simp)
  · intro db per so_id so hso hst hpres e db2 herr
    simp only [challan_create, hso] at herr
    rw [if_neg (by simp [hst])] at herr
    have hpres2 : ∀ l ∈ db.soLines.filter (fun l => l.so_id == so_id),
        (findStock ({ db with challans := db.challans ++
          [⟨freshChallanId db, next_no "DC" per db, so_id, "OPEN"⟩] } : DB).stocks
          so.warehouse_id l.item_id).isSome = true := by
      intro l hl
      exact hpres l (List.mem_filter.1 hl).1
        (by simpa using (List.mem_filter.1 hl).2)
    cases hloop : challanLoop so.warehouse_id (freshChallanId db)
        (db.soLines.filter (fun l => l.so_id == so_id))
        { db with challans := db.challans ++
            [⟨freshChallanId db, next_no "DC" per db, so_id, "OPEN"⟩] }
        { db with challans := db.challans ++
            [⟨freshChallanId db, next_no "DC" per db, so_id, "OPEN"⟩] } with
    | error ev =>
      rw [hloop] at herr
      simp only [Except.error.injEq] at herr
      have hspec := challanLoop_error_committed so.warehouse_id (freshChallanId db)
        (db.soLines.filter (fun l => l.so_id == so_id)) _ _ hpres2 ev.1 ev.2
        (by rw [hloop])
      have hev : ev = (e, db2) := herr
      refine ⟨?_, ?_, ?_, ?_, ?_⟩
      · rw [show e = ev.1 from by rw [hev], hspec.1]
      · rw [show db2 = ev.2 from by rw [hev], hspec.2]
      · rw [show db2 = ev.2 from by rw [hev], hspec.2]
      · rw [show db2 = ev.2 from by rw [hev], hspec.2]
      · rw [show db2 = ev.2 from by rw [hev], hspec.2]
    | ok pending =>
      rw [hloop] at herr
      exact absurd herr (by simp)
  · refine ⟨?_, ?_, ?_, ?_⟩ <;> with_unfolding_all decide

/-- C2 witness: on `chalDB` (one line, stock row present) the failed
dispatch keeps the stocks, challan lines and sales orders untouched. -/
theorem challan_create_abort_state_witness :
    chalDBAfter.stocks = chalDB.stocks ∧
      chalDBAfter.challanLines = chalDB.challanLines ∧
      chalDBAfter.sos = chalDB.sos := by
  have h := challan_create_abort_state.2.1 chalDB "202501" 1
    ⟨1, "SO-202501-0001", 1, 1, "APPROVED"⟩ (by with_unfolding_all decide) rfl
    (by with_unfolding_all decide) .insufficientStock chalDBAfter
    (by with_unfolding_all decide)
  exact ⟨h.2.2.1, h.2.2.2.1, h.2.2.2.2⟩

/-- C4 counterexample: for a party with credit_limit = −100 (not > 0, so the
claim says the credit-limit check must be skipped) the code still fails with
the credit-limit error: Python's `if party.credit_limit` is a truthiness
test, true for any non-zero value. -/
theorem negative_credit_limit_counterexample :
    findParty negLimitDB 1 = some ⟨1, -100, 0, false⟩ ∧
      ¬((-100 : ℚ) > 0) ∧
      invoice_create negLimitDB 1 0 0 "202501" =
        .error (.creditLimitExceeded (-100) 0 50, negLimitDB) := by
  refine ⟨by with_unfolding_all decide, by norm_num, by with_unfolding_all decide⟩

/-- C4 (amended): credit control in `invoice_create` runs strictly before
any invoice row is persisted and checks in order with short-circuit:
blocked party; then overdue > 0; then — whenever credit_limit ≠ 0 (Python
float truthiness, not credit_limit > 0) — outstanding + projected total
over the limit, reporting limit, outstanding and the rounded new-invoice
amount.  Each failure returns the input state unchanged (challan still
OPEN, no invoice row); when all three pass, creation succeeds. -/
theorem invoice_create_credit_control :
    ∀ (db : DB) (dc_id : Nat) (today d : ℤ) (per : String)
      (dc : Challan) (so : SalesOrder) (party : Party),
      findChallan db dc_id = some dc → dc.status = "OPEN" →
      findSO db dc.so_id = some so → findParty db so.party_id = some party →
      ((party.is_blocked = true →
          invoice_create db dc_id today d per = .error (.partyBlocked, db))
      ∧ (party.is_blocked = false →
          (calc_party_summary db today party).overdue > 0 →
          invoice_create db dc_id today d per =
            .error (.overdueBalance (calc_party_summary db today party).overdue,
              db))
      ∧ (party.is_blocked = false →
          (calc_party_summary db today party).overdue ≤ 0 →
          party.credit_limit ≠ 0 →
          (calc_party_summary db today party).outstanding +
              projectedTotal db.items db.partyPrices party.id
                (db.challanLines.filter (fun l => l.dc_id == dc_id)) >
            party.credit_limit →
          invoice_create db dc_id today d per =
            .error (.creditLimitExceeded party.credit_limit
              (calc_party_summary db today party).outstanding
              (round2 (projectedTotal db.items db.partyPrices party.id
                (db.challanLines.filter (fun l => l.dc_id == dc_id)))), db))
      ∧ (party.is_blocked = false →
          (calc_party_summary db today party).overdue ≤ 0 →
          (party.credit_limit = 0 ∨
            (calc_party_summary db today party).outstanding +
                projectedTotal db.items db.partyPrices party.id
                  (db.challanLines.filter (fun l => l.dc_id == dc_id)) ≤
              party.credit_limit) →
          ∃ db', invoice_create db dc_id today d per = .ok db')) := by
  intro db dc_id today d per dc so party hdc hst hso hparty
  refine ⟨?_, ?_, ?_, ?_⟩
  · intro hb
    simp only [invoice_create, hdc, hso, hparty]
    rw [if_neg (by simp [hst]), if_pos hb]
  · intro hb hov
    simp only [invoice_create, hdc, hso, hparty]
    rw [if_neg (by simp [hst]), if_neg (by simp [hb]), if_pos hov]
  · intro hb hov hcl hgt
    simp only [invoice_create, hdc, hso, hparty]
    rw [if_neg (by simp [hst]), if_neg (by simp [hb]), if_neg (not_lt.2 hov),
      if_pos ⟨hcl, hgt⟩]
  · intro hb hov hpass
    simp only [invoice_create, hdc, hso, hparty]
    rw [if_neg (by simp [hst]), if_neg (by simp [hb]), if_neg (not_lt.2 hov),
      if_neg (by
        rintro ⟨h1, h2⟩
        rcases hpass with h | h
        · exact h1 h
        · exact absurd h2 (not_lt.2 h))]
    exact ⟨_, rfl⟩

/-- C4 witness: on `okInvDB` the party is not blocked, has no overdue
balance and a zero credit limit, so all three checks pass and the invoice
is created. -/
theorem invoice_create_credit_control_witness :
    ∃ db', invoice_create okInvDB 1 0 0 "202501" = .ok db' := by
  exact (invoice_create_credit_control okInvDB 1 0 0 "202501"
    ⟨1, "DC-202501-0001", 1, "OPEN"⟩ ⟨1, "SO-202501-0001", 1, 1, "DISPATCHED"⟩
    ⟨1, 0, 0, false⟩ (by with_unfolding_all decide) rfl
    (by with_unfolding_all decide) (by with_unfolding_all decide)).2.2.2 rfl
    (by with_unfolding_all decide) (Or.inl rfl)

theorem v1_get_stock_spec (c p : AppV1.DB) (w i : Nat) :
    (∃ st, findStock p.stocks w i = some st ∧
        AppV1.get_stock c p w i = (st.qty, c, p)) ∨
      (findStock p.stocks w i = none ∧
        AppV1.get_stock c p w i =
          (0, { p with stocks := p.stocks ++ [⟨w, i, 0⟩] },
            { p with stocks := p.stocks ++ [⟨w, i, 0⟩] })) := by
  cases h : findStock p.stocks w i with
  | some st => exact Or.inl ⟨st, rfl, by simp [AppV1.get_stock, h]⟩
  | none => exact Or.inr ⟨rfl, by simp [AppV1.get_stock, h]⟩

theorem v1_totals_update_invariant (db : AppV1.DB) (inv_id j : Nat) :
    AppV1.invoice_totals (AppV1.update_invoice_status db inv_id) j =
      AppV1.invoice_totals db j := by
  cases h : db.invoices.find? (fun i => i.id == inv_id) with
  | none => simp [AppV1.update_invoice_status, h]
  | some inv => simp [AppV1.update_invoice_status, h, AppV1.invoice_totals]

theorem v1_update_status_view (db : AppV1.DB) (inv_id : Nat)
    (inv : AppV1.Invoice)
    (hfind : db.invoices.find? (fun i => i.id == inv_id) = some inv) :
    AppV1.invoiceStatusView (AppV1.update_invoice_status db inv_id) inv_id =
      some (if (AppV1.invoice_totals db inv_id).total ≤ 0 then "OPEN"
        else if (AppV1.invoice_totals db inv_id).balance ≤ 1 / 1000 then "PAID"
        else if (AppV1.invoice_totals db inv_id).paid > 0 then "PARTIAL"
        else "OPEN") := by
  simp only [AppV1.update_invoice_status, hfind, AppV1.invoiceStatusView]
  rw [find?_map_of_pred_inv _ _
    (fun a => by by_cases h : (a.id == inv_id) = true <;> simp [h])]
  rw [hfind]
  have hbeq := List.find?_some hfind
  have hid : inv.id = inv_id := by simpa using hbeq
  simp [hid]

/-- C6 counterexample: in the v2 app, recording a full payment of 500
against an OPEN invoice of total 500 leaves the stored status OPEN — the
rule would derive PAID (balance 0 ≤ 0.001, total > 0), but `add_payment`
never re-derives the status. -/
theorem add_payment_no_rederive_counterexample :
    add_payment payDB 1 500 = .ok payDBAfter ∧
      invoiceStatusView payDBAfter 1 = some "OPEN" ∧
      (invoice_totals payDBAfter 1).total = 500 ∧
      (invoice_totals payDBAfter 1).balance = 0 ∧
      (invoice_totals payDBAfter 1).paid = 500 := by
  with_unfolding_all decide

/-- C6 (amended): in the v1 app, both totals-affecting mutations re-derive
the stored invoice status from the post-mutation totals by the claimed rule
(total ≤ 0 → OPEN; balance ≤ 0.001 → PAID; paid > 0 and balance > 0.001 →
PARTIAL; else OPEN); in the v2 app, `add_payment` records the payment
without touching any invoice's stored status. -/
theorem invoice_status_rederivation :
    (∀ (db : AppV1.DB) (pid inv_id : Nat) (amt : ℚ) (inv : AppV1.Invoice),
      db.invoices.find? (fun i => i.id == inv_id) = some inv →
      (((AppV1.invoice_totals (AppV1.payments_create db pid inv_id amt) inv_id).total ≤ 0 →
        AppV1.invoiceStatusView (AppV1.payments_create db pid inv_id amt) inv_id =
          some "OPEN")
      ∧ (0 < (AppV1.invoice_totals (AppV1.payments_create db pid inv_id amt) inv_id).total →
        (AppV1.invoice_totals (AppV1.payments_create db pid inv_id amt) inv_id).balance ≤ 1 / 1000 →
        AppV1.invoiceStatusView (AppV1.payments_create db pid inv_id amt) inv_id =
          some "PAID")
      ∧ (0 < (AppV1.invoice_totals (AppV1.payments_create db pid inv_id amt) inv_id).total →
        1 / 1000 < (AppV1.invoice_totals (AppV1.payments_create db pid inv_id amt) inv_id).balance →
        0 < (AppV1.invoice_totals (AppV1.payments_create db pid inv_id amt) inv_id).paid →
        AppV1.invoiceStatusView (AppV1.payments_create db pid inv_id amt) inv_id =
          some "PARTIAL")
      ∧ (0 < (AppV1.invoice_totals (AppV1.payments_create db pid inv_id amt) inv_id).total →
        1 / 1000 < (AppV1.invoice_totals (AppV1.payments_create db pid inv_id amt) inv_id).balance →
        (AppV1.invoice_totals (AppV1.payments_create db pid inv_id amt) inv_id).paid ≤ 0 →
        AppV1.invoiceStatusView (AppV1.payments_create db pid inv_id amt) inv_id =
          some "OPEN")))
    ∧ (∀ (db : AppV1.DB) (inv_id item_id : Nat) (qty : ℤ) (rate gst : ℚ)
        (db' : AppV1.DB) (inv : AppV1.Invoice),
      db.invoices.find? (fun i => i.id == inv_id) = some inv →
      AppV1.invoice_add_line db inv_id item_id qty rate gst = .ok db' →
      (((AppV1.invoice_totals db' inv_id).total ≤ 0 →
        AppV1.invoiceStatusView db' inv_id = some "OPEN")
      ∧ (0 < (AppV1.invoice_totals db' inv_id).total →
        (AppV1.invoice_totals db' inv_id).balance ≤ 1 / 1000 →
        AppV1.invoiceStatusView db' inv_id = some "PAID")
      ∧ (0 < (AppV1.invoice_totals db' inv_id).total →
        1 / 1000 < (AppV1.invoice_totals db' inv_id).balance →
        0 < (AppV1.invoice_totals db' inv_id).paid →
        AppV1.invoiceStatusView db' inv_id = some "PARTIAL")
      ∧ (0 < (AppV1.invoice_totals db' inv_id).total →
        1 / 1000 < (AppV1.invoice_totals db' inv_id).balance →
        (AppV1.invoice_totals db' inv_id).paid ≤ 0 →
        AppV1.invoiceStatusView db' inv_id = some "OPEN")))
    ∧ (∀ (db : DB) (inv_id : Nat) (amt : ℚ) (db' : DB),
      add_payment db inv_id amt = .ok db' →
      ∀ i, invoiceStatusView db' i = invoiceStatusView db i) := by
  refine ⟨?_, ?_, ?_⟩
  · intro db pid inv_id amt inv hfind
    have hfind' : ({ db with payments := db.payments ++
        [⟨pid, some inv_id, amt⟩] } : AppV1.DB).invoices.find?
        (fun i => i.id == inv_id) = some inv := hfind
    have hv := v1_update_status_view
      { db with payments := db.payments ++ [⟨pid, some inv_id, amt⟩] }
      inv_id inv hfind'
    have htot : AppV1.invoice_totals (AppV1.payments_create db pid inv_id amt)
        inv_id = AppV1.invoice_totals
        { db with payments := db.payments ++ [⟨pid, some inv_id, amt⟩] }
        inv_id := by
      simp only [AppV1.payments_create]
      exact v1_totals_update_invariant _ inv_id inv_id
    rw [show AppV1.invoiceStatusView (AppV1.payments_create db pid inv_id amt)
        inv_id = AppV1.invoiceStatusView (AppV1.update_invoice_status
        { db with payments := db.payments ++ [⟨pid, some inv_id, amt⟩] }
        inv_id) inv_id from rfl]
    rw [htot, hv]
    refine ⟨?_, ?_, ?_, ?_⟩
    · intro h1
      rw [if_pos h1]
    · intro h1 h2
      rw [if_neg (not_le.2 h1), if_pos h2]
    · intro h1 h2 h3
      rw [if_neg (not_le.2 h1), if_neg (not_le.2 h2), if_pos h3]
    · intro h1 h2 h3
      rw [if_neg (not_le.2 h1), if_neg (not_le.2 h2), if_neg (not_lt.2 h3)]
  · intro db inv_id item_id qty rate gst db' inv hfind hok
    simp only [AppV1.invoice_add_line, hfind] at hok
    rcases v1_get_stock_spec db db inv.warehouse_id item_id with
      ⟨st, hfs, hgs⟩ | ⟨hfs, hgs⟩ <;> rw [hgs] at hok <;> simp only at hok
    · by_cases hlt : st.qty < qty
      · rw [if_pos hlt] at hok; exact absurd hok (by simp)
      · rw [if_neg hlt] at hok
        simp only [Except.ok.injEq] at hok
        have hfind2 : (({ db with
            stocks := setStockQty inv.warehouse_id item_id (st.qty - qty) db.stocks,
            invoiceLines := db.invoiceLines ++
              [⟨inv_id, item_id, qty, rate, gst⟩] } : AppV1.DB)).invoices.find?
            (fun i => i.id == inv_id) = some inv := hfind
        have hv := v1_update_status_view _ inv_id inv hfind2
        have htot : AppV1.invoice_totals db' inv_id = AppV1.invoice_totals
            { db with
              stocks := setStockQty inv.warehouse_id item_id (st.qty - qty) db.stocks,
              invoiceLines := db.invoiceLines ++
                [⟨inv_id, item_id, qty, rate, gst⟩] } inv_id := by
          rw [← hok]
          exact v1_totals_update_invariant _ inv_id inv_id
        rw [htot, ← hok, hv]
        refine ⟨?_, ?_, ?_, ?_⟩
        · intro h1
          rw [if_pos h1]
        · intro h1 h2
          rw [if_neg (not_le.2 h1), if_pos h2]
        · intro h1 h2 h3
          rw [if_neg (not_le.2 h1), if_neg (not_le.2 h2), if_pos h3]
        · intro h1 h2 h3
          rw [if_neg (not_le.2 h1), if_neg (not_le.2 h2), if_neg (not_lt.2 h3)]
    · by_cases hlt : (0 : ℤ) < qty
      · rw [if_pos hlt] at hok; exact absurd hok (by simp)
      · rw [if_neg hlt] at hok
        simp only [Except.ok.injEq] at hok
        have hfind2 : (({ db with
            stocks := setStockQty inv.warehouse_id item_id (0 - qty)
              (db.stocks ++ [⟨inv.warehouse_id, item_id, 0⟩]),
            invoiceLines := db.invoiceLines ++
              [⟨inv_id, item_id, qty, rate, gst⟩] } : AppV1.DB)).invoices.find?
            (fun i => i.id == inv_id) = some inv := hfind
        have hv := v1_update_status_view _ inv_id inv hfind2
        have htot : AppV1.invoice_totals db' inv_id = AppV1.invoice_totals
            { db with
              stocks := setStockQty inv.warehouse_id item_id (0 - qty)
                (db.stocks ++ [⟨inv.warehouse_id, item_id, 0⟩]),
              invoiceLines := db.invoiceLines ++
                [⟨inv_id, item_id, qty, rate, gst⟩] } inv_id := by
          rw [← hok]
          exact v1_totals_update_invariant _ inv_id inv_id
        rw [htot, ← hok, hv]
        refine ⟨?_, ?_, ?_, ?_⟩
        · intro h1
          rw [if_pos h1]
        · intro h1 h2
          rw [if_neg (not_le.2 h1), if_pos h2]
        · intro h1 h2 h3
          rw [if_neg (not_le.2 h1), if_neg (not_le.2 h2), if_pos h3]
        · intro h1 h2 h3
          rw [if_neg (not_le.2 h1), if_neg (not_le.2 h2), if_neg (not_lt.2 h3)]
  · intro db inv_id amt db' hok i
    simp only [add_payment] at hok
    cases hinv : findInvoice db inv_id with
    | none => rw [hinv] at hok; exact absurd hok (by simp)
    | some inv =>
      rw [hinv] at hok
      simp only [Except.ok.injEq] at hok
      rw [← hok]
      rfl

/-- C6 witness: a v1 invoice of total 500 becomes PARTIAL after a 200
payment and PAID after a further 300 payment, exactly as the derivation rule
prescribes. -/
theorem invoice_status_rederivation_witness :
    AppV1.invoiceStatusView (AppV1.payments_create v1DB 1 1 200) 1 =
        some "PARTIAL" ∧
      AppV1.invoiceStatusView
        (AppV1.payments_create (AppV1.payments_create v1DB 1 1 200) 1 1 300) 1 =
        some "PAID" := by
  constructor
  · exact (invoice_status_rederivation.1 v1DB 1 1 200 ⟨1, 1, 1, "OPEN"⟩
      (by with_unfolding_all decide)).2.2.1
      (by with_unfolding_all decide) (by with_unfolding_all decide)
      (by with_unfolding_all decide)
  · exact (invoice_status_rederivation.1 (AppV1.payments_create v1DB 1 1 200)
      1 1 300 ⟨1, 1, 1, "PARTIAL"⟩ (by with_unfolding_all decide)).2.1
      (by with_unfolding_all decide) (by with_unfolding_all decide)

/-- C9 counterexample: a stored number in which the period prefix occurs
twice.  Its trailing suffix does not parse as an integer, so the claim
prescribes suffix 0001; `next_no`, which deletes EVERY occurrence of the
period prefix before parsing, extracts 7 and returns 0008. -/
theorem next_no_replace_all_counterexample :
    trailingNums ("INV-202501-" : String).data (existingNos numTrickDB "INV")
        = [] ∧
      next_no "INV" "202501" numTrickDB = "INV-202501-0008" ∧
      next_no "INV" "202501" numTrickDB ≠ "INV-202501-0001" := by
  with_unfolding_all decide

/-- C9 (amended): whenever the period prefix occurs in each stored number
only as its leading prefix (true of every number `next_no` itself
generates), `next_no` keeps exactly the numbers beginning with
`prefix-period-` whose trailing suffix parses as an integer and returns
`prefix-period-` followed by max+1 zero-padded to 4 digits, or suffix 0001
when no number parses for this period.  (In general the code deletes every
occurrence of the period prefix before parsing, not just the leading
one.) -/
theorem next_no_spec :
    ∀ (db : DB) (prefix_ period : String),
      (∀ x ∈ existingNos db prefix_,
        (prefix_ ++ "-" ++ period ++ "-").data.isPrefixOf x.data →
        containsSub (prefix_ ++ "-" ++ period ++ "-").data
          (x.data.drop (prefix_ ++ "-" ++ period ++ "-").data.length) = false) →
      ((trailingNums (prefix_ ++ "-" ++ period ++ "-").data
          (existingNos db prefix_) = [] →
        next_no prefix_ period db =
          ⟨(prefix_ ++ "-" ++ period ++ "-").data ++ zfill 4 (intChars 1)⟩)
      ∧ (∀ m : ℤ, (trailingNums (prefix_ ++ "-" ++ period ++ "-").data
          (existingNos db prefix_)).max? = some m →
        next_no prefix_ period db =
          ⟨(prefix_ ++ "-" ++ period ++ "-").data ++ zfill 4 (intChars (m + 1))⟩)) := by
  intro db prefix_ period hocc
  have hne : (prefix_ ++ "-" ++ period ++ "-").data ≠ [] := by
    intro hcon
    have := congrArg List.length hcon
    simp [String.data_append] at this
  constructor
  · intro hnil
    simp only [next_no]
    rw [extractedNums_eq_trailingNums _ hne _ hocc, hnil]
    rfl
  · intro m hm
    simp only [next_no]
    rw [extractedNums_eq_trailingNums _ hne _ hocc, hm]

/-- C9 witness: the claim's own example — existing INV-202501-0001 and
INV-202501-0003 yield INV-202501-0004 (max+1, not count+1). -/
theorem next_no_spec_witness :
    next_no "INV" "202501" numDB = "INV-202501-0004" := by
  have h := (next_no_spec numDB "INV" "202501"
    (by with_unfolding_all decide)).2 3 (by with_unfolding_all decide)
  rw [h]
  with_unfolding_all decide

theorem challanStatusView_append (db : DB) (c : Challan) (x : Nat) (s : String)
    (h : challanStatusView db x = some s) :
    challanStatusView { db with challans := db.challans ++ [c] } x = some s := by
  unfold challanStatusView findChallan at h ⊢
  rcases Option.map_eq_some'.mp h with ⟨dc, hdc, hs⟩
  rw [show (db.challans ++ [c]).find? (fun dc => dc.id == x) = some dc from
    find?_append_some hdc]
  simp [hs]

theorem soStatusView_append (db : DB) (c : SalesOrder) (x : Nat) (s : String)
    (h : soStatusView db x = some s) :
    soStatusView { db with sos := db.sos ++ [c] } x = some s := by
  unfold soStatusView findSO at h ⊢
  rcases Option.map_eq_some'.mp h with ⟨so, hso, hs⟩
  rw [show (db.sos ++ [c]).find? (fun so => so.id == x) = some so from
    find?_append_some hso]
  simp [hs]

theorem rnStatusView_append (db : DB) (c : ReturnNote) (x : Nat) (s : String)
    (h : rnStatusView db x = some s) :
    rnStatusView { db with returnNotes := db.returnNotes ++ [c] } x = some s := by
  unfold rnStatusView findRN at h ⊢
  rcases Option.map_eq_some'.mp h with ⟨rn, hrn, hs⟩
  rw [show (db.returnNotes ++ [c]).find? (fun rn => rn.id == x) = some rn from
    find?_append_some hrn]
  simp [hs]

theorem invoiceStatusView_append (db : DB) (c : Invoice) (x : Nat) (s : String)
    (h : invoiceStatusView db x = some s) :
    invoiceStatusView { db with invoices := db.invoices ++ [c] } x = some s := by
  unfold invoiceStatusView findInvoice at h ⊢
  rcases Option.map_eq_some'.mp h with ⟨inv, hinv, hs⟩
  rw [show (db.invoices ++ [c]).find? (fun inv => inv.id == x) = some inv from
    find?_append_some hinv]
  simp [hs]

theorem challanView_map_invoiced (l : List Challan) (dc_id x : Nat)
    (h : (l.find? (fun c => c.id == x)).map Challan.status = some "INVOICED") :
    ((l.map (fun c => if c.id == dc_id then { c with status := "INVOICED" }
        else c)).find? (fun c => c.id == x)).map Challan.status =
      some "INVOICED" := by
  rw [find?_map_of_pred_inv _ _
    (fun a => by by_cases hc : (a.id == dc_id) = true <;> simp [hc])]
  rcases Option.map_eq_some'.mp h with ⟨dc, hdc, hs⟩
  rw [hdc]
  by_cases hq : dc.id = dc_id <;> simp [hq, hs]

theorem rnView_map_posted (l : List ReturnNote) (rn_id x : Nat)
    (h : (l.find? (fun r => r.id == x)).map ReturnNote.status = some "POSTED") :
    ((l.map (fun r => if r.id == rn_id then { r with status := "POSTED" }
        else r)).find? (fun r => r.id == x)).map ReturnNote.status =
      some "POSTED" := by
  rw [find?_map_of_pred_inv _ _
    (fun a => by by_cases hc : (a.id == rn_id) = true <;> simp [hc])]
  rcases Option.map_eq_some'.mp h with ⟨rn, hrn, hs⟩
  rw [hrn]
  by_cases hq : rn.id = rn_id <;> simp [hq, hs]

theorem soView_map_dispatched_ne (l : List SalesOrder) (so_id x : Nat)
    (s : String) (hx : x ≠ so_id)
    (h : (l.find? (fun so => so.id == x)).map SalesOrder.status = some s) :
    ((l.map (fun so => if so.id == so_id then { so with status := "DISPATCHED" }
        else so)).find? (fun so => so.id == x)).map SalesOrder.status =
      some s := by
  rw [find?_map_of_pred_inv _ _
    (fun a => by by_cases hc : (a.id == so_id) = true <;> simp [hc])]
  rcases Option.map_eq_some'.mp h with ⟨so, hso, hs⟩
  rw [hso]
  have hid : so.id = x := by simpa using List.find?_some hso
  have hc : ¬so.id = so_id := by
    rw [hid]; exact hx
  simp [hc, hs]

theorem stock_adjust_tables (db : DB) (w i : Nat) (d : ℤ) :
    (resultDB (stock_adjust db w i d)).challans = db.challans ∧
      (resultDB (stock_adjust db w i d)).invoices = db.invoices ∧
      (resultDB (stock_adjust db w i d)).sos = db.sos ∧
      (resultDB (stock_adjust db w i d)).returnNotes = db.returnNotes := by
  rcases get_stock_spec db db w i with ⟨st, hfs, hgs⟩ | ⟨hfs, hgs⟩ <;>
    simp only [stock_adjust, hgs]
  · by_cases hneg : st.qty + d < 0
    · rw [if_pos hneg]; exact ⟨rfl, rfl, rfl, rfl⟩
    · rw [if_neg hneg]; exact ⟨rfl, rfl, rfl, rfl⟩
  · by_cases hneg : (0 : ℤ) + d < 0
    · rw [if_pos hneg]; exact ⟨rfl, rfl, rfl, rfl⟩
    · rw [if_neg hneg]; exact ⟨rfl, rfl, rfl, rfl⟩

theorem so_add_line_tables (db : DB) (so_id item_id : Nat) (qty : ℤ) :
    (resultDB (so_add_line db so_id item_id qty)).challans = db.challans ∧
      (resultDB (so_add_line db so_id item_id qty)).invoices = db.invoices ∧
      (resultDB (so_add_line db so_id item_id qty)).sos = db.sos ∧
      (resultDB (so_add_line db so_id item_id qty)).returnNotes =
        db.returnNotes := by
  cases hso : findSO db so_id with
  | none => simp only [so_add_line, hso]; exact ⟨rfl, rfl, rfl, rfl⟩
  | some so =>
    cases hit : findItem db.items item_id with
    | none => simp only [so_add_line, hso, hit]; exact ⟨rfl, rfl, rfl, rfl⟩
    | some item => simp only [so_add_line, hso, hit]; exact ⟨rfl, rfl, rfl, rfl⟩

theorem so_approve_tables (db : DB) (so_id : Nat) :
    (resultDB (so_approve db so_id)).challans = db.challans ∧
      (resultDB (so_approve db so_id)).invoices = db.invoices ∧
      (resultDB (so_approve db so_id)).returnNotes = db.returnNotes := by
  cases hso : findSO db so_id with
  | none => simp only [so_approve, hso]; exact ⟨rfl, rfl, rfl⟩
  | some so => simp only [so_approve, hso]; exact ⟨rfl, rfl, rfl⟩

theorem add_payment_tables (db : DB) (inv_id : Nat) (amt : ℚ) :
    (resultDB (add_payment db inv_id amt)).challans = db.challans ∧
      (resultDB (add_payment db inv_id amt)).invoices = db.invoices ∧
      (resultDB (add_payment db inv_id amt)).sos = db.sos ∧
      (resultDB (add_payment db inv_id amt)).returnNotes = db.returnNotes := by
  cases hinv : findInvoice db inv_id with
  | none => simp only [add_payment, hinv]; exact ⟨rfl, rfl, rfl, rfl⟩
  | some inv => simp only [add_payment, hinv]; exact ⟨rfl, rfl, rfl, rfl⟩

theorem set_party_price_tables (db : DB) (p i : Nat) (disc : ℚ) :
    (set_party_price db p i disc).challans = db.challans ∧
      (set_party_price db p i disc).invoices = db.invoices ∧
      (set_party_price db p i disc).sos = db.sos ∧
      (set_party_price db p i disc).returnNotes = db.returnNotes := by
  cases hpp : db.partyPrices.find?
      (fun pp => pp.party_id == p && pp.item_id == i) with
  | none => simp [set_party_price, hpp]
  | some pp => simp [set_party_price, hpp]

theorem returns_add_line_tables (db : DB) (rn_id item_id : Nat) (qty : ℤ) :
    (resultDB (returns_add_line db rn_id item_id qty)).challans = db.challans ∧
      (resultDB (returns_add_line db rn_id item_id qty)).invoices =
        db.invoices ∧
      (resultDB (returns_add_line db rn_id item_id qty)).sos = db.sos ∧
      (resultDB (returns_add_line db rn_id item_id qty)).returnNotes =
        db.returnNotes := by
  cases hrn : findRN db rn_id with
  | none => simp only [returns_add_line, hrn]; exact ⟨rfl, rfl, rfl, rfl⟩
  | some rn =>
    simp only [returns_add_line, hrn]
    by_cases hst : rn.status ≠ "OPEN"
    · rw [if_pos hst]; exact ⟨rfl, rfl, rfl, rfl⟩
    · rw [if_neg hst]; exact ⟨rfl, rfl, rfl, rfl⟩

theorem challan_create_tables (db : DB) (per : String) (so_id : Nat) :
    ((resultDB (challan_create db per so_id)).challans = db.challans ∨
      (resultDB (challan_create db per so_id)).challans = db.challans ++
        [⟨freshChallanId db, next_no "DC" per db, so_id, "OPEN"⟩]) ∧
    (resultDB (challan_create db per so_id)).invoices = db.invoices ∧
    (resultDB (challan_create db per so_id)).returnNotes = db.returnNotes ∧
    ((resultDB (challan_create db per so_id)).sos = db.sos ∨
      ∃ so, findSO db so_id = some so ∧ so.status = "APPROVED" ∧
        (resultDB (challan_create db per so_id)).sos = db.sos.map
          (fun s => if s.id == so_id then { s with status := "DISPATCHED" }
            else s)) := by
  cases hso : findSO db so_id with
  | none =>
    simp only [challan_create, hso]
    exact ⟨Or.inl rfl, rfl, rfl, Or.inl rfl⟩
  | some so =>
    simp only [challan_create, hso]
    by_cases hst : so.status ≠ "APPROVED"
    · rw [if_pos hst]; exact ⟨Or.inl rfl, rfl, rfl, Or.inl rfl⟩
    · rw [if_neg hst]
      push_neg at hst
      have hch := challanLoop_proj DB.challans (fun _ _ => rfl) (fun _ _ => rfl)
        so.warehouse_id (freshChallanId db)
        (db.soLines.filter (fun l => l.so_id == so_id))
        { db with challans := db.challans ++
            [⟨freshChallanId db, next_no "DC" per db, so_id, "OPEN"⟩] }
        { db with challans := db.challans ++
            [⟨freshChallanId db, next_no "DC" per db, so_id, "OPEN"⟩] } rfl
      have hinv := challanLoop_proj DB.invoices (fun _ _ => rfl) (fun _ _ => rfl)
        so.warehouse_id (freshChallanId db)
        (db.soLines.filter (fun l => l.so_id == so_id))
        { db with challans := db.challans ++
            [⟨freshChallanId db, next_no "DC" per db, so_id, "OPEN"⟩] }
        { db with challans := db.challans ++
            [⟨freshChallanId db, next_no "DC" per db, so_id, "OPEN"⟩] } rfl
      have hrn := challanLoop_proj DB.returnNotes (fun _ _ => rfl)
        (fun _ _ => rfl) so.warehouse_id (freshChallanId db)
        (db.soLines.filter (fun l => l.so_id == so_id))
        { db with challans := db.challans ++
            [⟨freshChallanId db, next_no "DC" per db, so_id, "OPEN"⟩] }
        { db with challans := db.challans ++
            [⟨freshChallanId db, next_no "DC" per db, so_id, "OPEN"⟩] } rfl
      have hsos := challanLoop_proj DB.sos (fun _ _ => rfl) (fun _ _ => rfl)
        so.warehouse_id (freshChallanId db)
        (db.soLines.filter (fun l => l.so_id == so_id))
        { db with challans := db.challans ++
            [⟨freshChallanId db, next_no "DC" per db, so_id, "OPEN"⟩] }
        { db with challans := db.challans ++
            [⟨freshChallanId db, next_no "DC" per db, so_id, "OPEN"⟩] } rfl
      cases hloop : challanLoop so.warehouse_id (freshChallanId db)
          (db.soLines.filter (fun l => l.so_id == so_id))
          { db with challans := db.challans ++
              [⟨freshChallanId db, next_no "DC" per db, so_id, "OPEN"⟩] }
          { db with challans := db.challans ++
              [⟨freshChallanId db, next_no "DC" per db, so_id, "OPEN"⟩] } with
      | error e =>
        rw [hloop] at hch hinv hrn hsos
        exact ⟨Or.inr hch, hinv, hrn, Or.inl hsos⟩
      | ok pending =>
        rw [hloop] at hch hinv hrn hsos
        refine ⟨Or.inr hch, hinv, hrn, Or.inr ⟨so, rfl, hst, ?_⟩⟩
        show (List.map _ pending.sos) = _
        rw [show pending.sos = db.sos from hsos]

theorem invoice_create_tables (db : DB) (dc_id : Nat) (t d : ℤ) (per : String) :
    (resultDB (invoice_create db dc_id t d per)).sos = db.sos ∧
    (resultDB (invoice_create db dc_id t d per)).returnNotes = db.returnNotes ∧
    ((resultDB (invoice_create db dc_id t d per)).invoices = db.invoices ∨
      ∃ inv, (resultDB (invoice_create db dc_id t d per)).invoices =
        db.invoices ++ [inv]) ∧
    ((resultDB (invoice_create db dc_id t d per)).challans = db.challans ∨
      (resultDB (invoice_create db dc_id t d per)).challans = db.challans.map
        (fun c => if c.id == dc_id then { c with status := "INVOICED" }
          else c)) := by
  cases hdc : findChallan db dc_id with
  | none =>
    simp only [invoice_create, hdc]
    exact ⟨rfl, rfl, Or.inl rfl, Or.inl rfl⟩
  | some dc =>
    cases hso : findSO db dc.so_id with
    | none =>
      simp only [invoice_create, hdc, hso]
      by_cases hst : dc.status ≠ "OPEN"
      · rw [if_pos hst]; exact ⟨rfl, rfl, Or.inl rfl, Or.inl rfl⟩
      · rw [if_neg hst]; exact ⟨rfl, rfl, Or.inl rfl, Or.inl rfl⟩
    | some so =>
      cases hparty : findParty db so.party_id with
      | none =>
        simp only [invoice_create, hdc, hso, hparty]
        by_cases hst : dc.status ≠ "OPEN"
        · rw [if_pos hst]; exact ⟨rfl, rfl, Or.inl rfl, Or.inl rfl⟩
        · rw [if_neg hst]; exact ⟨rfl, rfl, Or.inl rfl, Or.inl rfl⟩
      | some party =>
        simp only [invoice_create, hdc, hso, hparty]
        by_cases hst : dc.status ≠ "OPEN"
        · rw [if_pos hst]; exact ⟨rfl, rfl, Or.inl rfl, Or.inl rfl⟩
        · rw [if_neg hst]
          by_cases hb : party.is_blocked
          · rw [if_pos hb]; exact ⟨rfl, rfl, Or.inl rfl, Or.inl rfl⟩
          · rw [if_neg hb]
            by_cases hov : (calc_party_summary db t party).overdue > 0
            · rw [if_pos hov]; exact ⟨rfl, rfl, Or.inl rfl, Or.inl rfl⟩
            · rw [if_neg hov]
              by_cases hcl : party.credit_limit ≠ 0 ∧
                  (calc_party_summary db t party).outstanding +
                    projectedTotal db.items db.partyPrices party.id
                      (db.challanLines.filter (fun l => l.dc_id == dc_id)) >
                    party.credit_limit
              · rw [if_pos hcl]; exact ⟨rfl, rfl, Or.inl rfl, Or.inl rfl⟩
              · rw [if_neg hcl]
                exact ⟨rfl, rfl, Or.inr ⟨_, rfl⟩, Or.inr rfl⟩

theorem returns_post_tables (db : DB) (rn_id : Nat) :
    (resultDB (returns_post db rn_id)).challans = db.challans ∧
    (resultDB (returns_post db rn_id)).invoices = db.invoices ∧
    (resultDB (returns_post db rn_id)).sos = db.sos ∧
    ((resultDB (returns_post db rn_id)).returnNotes = db.returnNotes ∨
      ∃ rn, findRN db rn_id = some rn ∧ rn.status = "OPEN" ∧
        (resultDB (returns_post db rn_id)).returnNotes = db.returnNotes.map
          (fun r => if r.id == rn_id then { r with status := "POSTED" }
            else r)) := by
  cases hrn : findRN db rn_id with
  | none =>
    simp only [returns_post, hrn]
    exact ⟨rfl, rfl, rfl, Or.inl rfl⟩
  | some rn =>
    simp only [returns_post, hrn]
    by_cases hst : rn.status ≠ "OPEN"
    · rw [if_pos hst]; exact ⟨rfl, rfl, rfl, Or.inl rfl⟩
    · rw [if_neg hst]
      push_neg at hst
      have hch := returnsLoop_proj DB.challans (fun _ _ => rfl) rn.warehouse_id
        (db.returnLines.filter (fun l => l.return_id == rn_id)) db
      have hinv := returnsLoop_proj DB.invoices (fun _ _ => rfl) rn.warehouse_id
        (db.returnLines.filter (fun l => l.return_id == rn_id)) db
      have hsos := returnsLoop_proj DB.sos (fun _ _ => rfl) rn.warehouse_id
        (db.returnLines.filter (fun l => l.return_id == rn_id)) db
      have hrns := returnsLoop_proj DB.returnNotes (fun _ _ => rfl)
        rn.warehouse_id (db.returnLines.filter (fun l => l.return_id == rn_id))
        db
      refine ⟨hch, hinv, hsos, Or.inr ⟨rn, rfl, hst, ?_⟩⟩
      show (List.map _ (returnsLoop rn.warehouse_id
        (db.returnLines.filter (fun l => l.return_id == rn_id)) db).returnNotes)
        = _
      rw [hrns]

theorem challanStatusView_eq_table {db1 db2 : DB}
    (h : db1.challans = db2.challans) (x : Nat) :
    challanStatusView db1 x = challanStatusView db2 x := by
  unfold challanStatusView findChallan
  rw [h]

theorem soStatusView_eq_table {db1 db2 : DB} (h : db1.sos = db2.sos) (x : Nat) :
    soStatusView db1 x = soStatusView db2 x := by
  unfold soStatusView findSO
  rw [h]

theorem rnStatusView_eq_table {db1 db2 : DB}
    (h : db1.returnNotes = db2.returnNotes) (x : Nat) :
    rnStatusView db1 x = rnStatusView db2 x := by
  unfold rnStatusView findRN
  rw [h]

theorem invoiceStatusView_eq_table {db1 db2 : DB}
    (h : db1.invoices = db2.invoices) (x : Nat) :
    invoiceStatusView db1 x = invoiceStatusView db2 x := by
  unfold invoiceStatusView findInvoice
  rw [h]

theorem step_challan_invoiced (a : Req) (db : DB) (dc_id : Nat)
    (h : challanStatusView db dc_id = some "INVOICED") :
    challanStatusView (step a db) dc_id = some "INVOICED" := by
  cases a with
  | stockAdjust w i d =>
    simp only [step]
    rw [challanStatusView_eq_table (stock_adjust_tables db w i d).1 dc_id]
    exact h
  | soCreate p w per =>
    simp only [step]
    rw [challanStatusView_eq_table
      (show (so_create db p w per).challans = db.challans from rfl) dc_id]
    exact h
  | soAddLine s i q =>
    simp only [step]
    rw [challanStatusView_eq_table (so_add_line_tables db s i q).1 dc_id]
    exact h
  | soApprove s =>
    simp only [step]
    rw [challanStatusView_eq_table (so_approve_tables db s).1 dc_id]
    exact h
  | challanCreate s per =>
    simp only [step]
    rcases (challan_create_tables db per s).1 with hc | hc
    · rw [challanStatusView_eq_table hc dc_id]
      exact h
    · rw [challanStatusView_eq_table
        (show (resultDB (challan_create db per s)).challans =
          ({ db with challans := db.challans ++
            [⟨freshChallanId db, next_no "DC" per db, s, "OPEN"⟩] } : DB).challans
          from hc) dc_id]
      exact challanStatusView_append db _ dc_id _ h
  | invoiceCreate dcid t dd per =>
    simp only [step]
    rcases (invoice_create_tables db dcid t dd per).2.2.2 with hc | hc
    · rw [challanStatusView_eq_table hc dc_id]
      exact h
    · unfold challanStatusView findChallan at h ⊢
      rw [hc]
      exact challanView_map_invoiced db.challans dcid dc_id h
  | addPayment i amt =>
    simp only [step]
    rw [challanStatusView_eq_table (add_payment_tables db i amt).1 dc_id]
    exact h
  | setPartyPrice p i disc =>
    simp only [step]
    rw [challanStatusView_eq_table (set_party_price_tables db p i disc).1 dc_id]
    exact h
  | returnsCreate p w per =>
    simp only [step]
    rw [challanStatusView_eq_table
      (show (returns_create db p w per).challans = db.challans from rfl) dc_id]
    exact h
  | returnsAddLine r i q =>
    simp only [step]
    rw [challanStatusView_eq_table (returns_add_line_tables db r i q).1 dc_id]
    exact h
  | returnsPost r =>
    simp only [step]
    rw [challanStatusView_eq_table (returns_post_tables db r).1 dc_id]
    exact h

theorem step_rn_posted (a : Req) (db : DB) (rn_id : Nat)
    (h : rnStatusView db rn_id = some "POSTED") :
    rnStatusView (step a db) rn_id = some "POSTED" := by
  cases a with
  | stockAdjust w i d =>
    simp only [step]
    rw [rnStatusView_eq_table (stock_adjust_tables db w i d).2.2.2 rn_id]
    exact h
  | soCreate p w per =>
    simp only [step]
    rw [rnStatusView_eq_table
      (show (so_create db p w per).returnNotes = db.returnNotes from rfl) rn_id]
    exact h
  | soAddLine s i q =>
    simp only [step]
    rw [rnStatusView_eq_table (so_add_line_tables db s i q).2.2.2 rn_id]
    exact h
  | soApprove s =>
    simp only [step]
    rw [rnStatusView_eq_table (so_approve_tables db s).2.2 rn_id]
    exact h
  | challanCreate s per =>
    simp only [step]
    rw [rnStatusView_eq_table (challan_create_tables db per s).2.2.1 rn_id]
    exact h
  | invoiceCreate dcid t dd per =>
    simp only [step]
    rw [rnStatusView_eq_table (invoice_create_tables db dcid t dd per).2.1 rn_id]
    exact h
  | addPayment i amt =>
    simp only [step]
    rw [rnStatusView_eq_table (add_payment_tables db i amt).2.2.2 rn_id]
    exact h
  | setPartyPrice p i disc =>
    simp only [step]
    rw [rnStatusView_eq_table (set_party_price_tables db p i disc).2.2.2 rn_id]
    exact h
  | returnsCreate p w per =>
    simp only [step]
    exact rnStatusView_append db _ rn_id _ h
  | returnsAddLine r i q =>
    simp only [step]
    rw [rnStatusView_eq_table (returns_add_line_tables db r i q).2.2.2 rn_id]
    exact h
  | returnsPost r =>
    simp only [step]
    rcases (returns_post_tables db r).2.2.2 with hc | ⟨rn, hrn, hst, hc⟩
    · rw [rnStatusView_eq_table hc rn_id]
      exact h
    · unfold rnStatusView findRN at h ⊢
      rw [hc]
      exact rnView_map_posted db.returnNotes r rn_id h

theorem step_invoice_status (a : Req) (db : DB) (inv_id : Nat) (s : String)
    (h : invoiceStatusView db inv_id = some s) :
    invoiceStatusView (step a db) inv_id = some s := by
  cases a with
  | stockAdjust w i d =>
    simp only [step]
    rw [invoiceStatusView_eq_table (stock_adjust_tables db w i d).2.1 inv_id]
    exact h
  | soCreate p w per =>
    simp only [step]
    rw [invoiceStatusView_eq_table
      (show (so_create db p w per).invoices = db.invoices from rfl) inv_id]
    exact h
  | soAddLine s2 i q =>
    simp only [step]
    rw [invoiceStatusView_eq_table (so_add_line_tables db s2 i q).2.1 inv_id]
    exact h
  | soApprove s2 =>
    simp only [step]
    rw [invoiceStatusView_eq_table (so_approve_tables db s2).2.1 inv_id]
    exact h
  | challanCreate s2 per =>
    simp only [step]
    rw [invoiceStatusView_eq_table (challan_create_tables db per s2).2.1 inv_id]
    exact h
  | invoiceCreate dcid t dd per =>
    simp only [step]
    rcases (invoice_create_tables db dcid t dd per).2.2.1 with hc | ⟨inv, hc⟩
    · rw [invoiceStatusView_eq_table hc inv_id]
      exact h
    · rw [invoiceStatusView_eq_table
        (show (resultDB (invoice_create db dcid t dd per)).invoices =
          ({ db with invoices := db.invoices ++ [inv] } : DB).invoices from hc)
        inv_id]
      exact invoiceStatusView_append db inv inv_id s h
  | addPayment i amt =>
    simp only [step]
    rw [invoiceStatusView_eq_table (add_payment_tables db i amt).2.1 inv_id]
    exact h
  | setPartyPrice p i disc =>
    simp only [step]
    rw [invoiceStatusView_eq_table (set_party_price_tables db p i disc).2.1
      inv_id]
    exact h
  | returnsCreate p w per =>
    simp only [step]
    rw [invoiceStatusView_eq_table
      (show (returns_create db p w per).invoices = db.invoices from rfl) inv_id]
    exact h
  | returnsAddLine r i q =>
    simp only [step]
    rw [invoiceStatusView_eq_table (returns_add_line_tables db r i q).2.1 inv_id]
    exact h
  | returnsPost r =>
    simp only [step]
    rw [invoiceStatusView_eq_table (returns_post_tables db r).2.1 inv_id]
    exact h

theorem step_so_terminal (a : Req) (db : DB) (so_id : Nat) (s : String)
    (hs : s = "DISPATCHED" ∨ s = "CANCELLED")
    (h : soStatusView db so_id = some s)
    (hne : ∀ x, a ≠ Req.soApprove x) :
    soStatusView (step a db) so_id = some s := by
  cases a with
  | stockAdjust w i d =>
    simp only [step]
    rw [soStatusView_eq_table (stock_adjust_tables db w i d).2.2.1 so_id]
    exact h
  | soCreate p w per =>
    simp only [step]
    exact soStatusView_append db _ so_id _ h
  | soAddLine s2 i q =>
    simp only [step]
    rw [soStatusView_eq_table (so_add_line_tables db s2 i q).2.2.1 so_id]
    exact h
  | soApprove s2 => exact absurd rfl (hne s2)
  | challanCreate s2 per =>
    simp only [step]
    rcases (challan_create_tables db per s2).2.2.2 with hc | ⟨so, hso, hst, hc⟩
    · rw [soStatusView_eq_table hc so_id]
      exact h
    · by_cases hx : so_id = s2
      · exfalso
        subst hx
        have : soStatusView db so_id = some "APPROVED" := by
          unfold soStatusView
          rw [hso]
          simp [hst]
        rw [h] at this
        rcases hs with h2 | h2 <;> rw [h2] at this <;> simp at this
      · unfold soStatusView findSO at h ⊢
        rw [hc]
        exact soView_map_dispatched_ne db.sos s2 so_id s hx h
  | invoiceCreate dcid t dd per =>
    simp only [step]
    rw [soStatusView_eq_table (invoice_create_tables db dcid t dd per).1 so_id]
    exact h
  | addPayment i amt =>
    simp only [step]
    rw [soStatusView_eq_table (add_payment_tables db i amt).2.2.1 so_id]
    exact h
  | setPartyPrice p i disc =>
    simp only [step]
    rw [soStatusView_eq_table (set_party_price_tables db p i disc).2.2.1 so_id]
    exact h
  | returnsCreate p w per =>
    simp only [step]
    rw [soStatusView_eq_table
      (show (returns_create db p w per).sos = db.sos from rfl) so_id]
    exact h
  | returnsAddLine r i q =>
    simp only [step]
    rw [soStatusView_eq_table (returns_add_line_tables db r i q).2.2.1 so_id]
    exact h
  | returnsPost r =>
    simp only [step]
    rw [soStatusView_eq_table (returns_post_tables db r).2.2.1 so_id]
    exact h

/-- C3: the order pipeline's state machine, as actually enforced by main.py.
A challan can be created only from a sales order that exists and is APPROVED
(otherwise `challan_create` fails with InvalidState and the database is
unchanged); a successful `challan_create` flips the order to DISPATCHED and
leaves the new challan OPEN.  An invoice can be created only from an OPEN
challan; a successful `invoice_create` flips the challan to INVOICED, and
any second `invoice_create` on that same challan fails with InvalidState —
at most one invoice per challan.  Among the claimed terminal states,
INVOICED challans, POSTED return notes and CANCELLED invoices survive every
operation; DISPATCHED or CANCELLED sales orders survive every operation
EXCEPT `so_approve`, which unconditionally rewrites any existing order to
APPROVED (the original unqualified "no transitions out of terminal states"
is refuted by `C3.so_approve_terminal_counterexample`). -/
theorem order_pipeline_state_machine :
    (∀ (db : DB) (per : String) (so_id : Nat),
      findSO db so_id = none →
        challan_create db per so_id = .error (.invalidState, db)) ∧
    (∀ (db : DB) (per : String) (so_id : Nat) (so : SalesOrder),
      findSO db so_id = some so → so.status ≠ "APPROVED" →
        challan_create db per so_id = .error (.invalidState, db)) ∧
    (∀ (db db' : DB) (per : String) (so_id : Nat),
      challan_create db per so_id = .ok db' →
        soStatusView db so_id = some "APPROVED" ∧
        soStatusView db' so_id = some "DISPATCHED" ∧
        challanStatusView db' (freshChallanId db) = some "OPEN") ∧
    (∀ (db : DB) (dc_id : Nat) (t d : ℤ) (per : String) (dc : Challan),
      findChallan db dc_id = some dc → dc.status ≠ "OPEN" →
        invoice_create db dc_id t d per = .error (.invalidState, db)) ∧
    (∀ (db db' : DB) (dc_id : Nat) (t d : ℤ) (per : String),
      invoice_create db dc_id t d per = .ok db' →
        challanStatusView db dc_id = some "OPEN" ∧
        challanStatusView db' dc_id = some "INVOICED" ∧
        ∀ (t2 d2 : ℤ) (per2 : String),
          invoice_create db' dc_id t2 d2 per2 = .error (.invalidState, db')) ∧
    (∀ (a : Req) (db : DB) (dc_id : Nat),
      challanStatusView db dc_id = some "INVOICED" →
        challanStatusView (step a db) dc_id = some "INVOICED") ∧
    (∀ (a : Req) (db : DB) (rn_id : Nat),
      rnStatusView db rn_id = some "POSTED" →
        rnStatusView (step a db) rn_id = some "POSTED") ∧
    (∀ (a : Req) (db : DB) (inv_id : Nat),
      invoiceStatusView db inv_id = some "CANCELLED" →
        invoiceStatusView (step a db) inv_id = some "CANCELLED") ∧
    (∀ (a : Req) (db : DB) (so_id : Nat) (s : String),
      (s = "DISPATCHED" ∨ s = "CANCELLED") →
      soStatusView db so_id = some s →
      (∀ x, a ≠ Req.soApprove x) →
        soStatusView (step a db) so_id = some s) := by
  refine ⟨?_, ?_, ?_, ?_, ?_, ?_, ?_, ?_, ?_⟩
  · intro db per so_id hso
    simp only [challan_create, hso]
  · intro db per so_id so hso hst
    simp only [challan_create, hso]
    rw [if_pos hst]
  · intro db db' per so_id hok
    cases hso : findSO db so_id with
    | none =>
      simp only [challan_create, hso] at hok
      cases hok
    | some so =>
      simp only [challan_create, hso] at hok
      by_cases hst : so.status ≠ "APPROVED"
      · rw [if_pos hst] at hok
        simp at hok
      · rw [if_neg hst] at hok
        push_neg at hst
        have hsos := challanLoop_proj DB.sos (fun _ _ => rfl) (fun _ _ => rfl)
          so.warehouse_id (freshChallanId db)
          (db.soLines.filter (fun l => l.so_id == so_id))
          { db with challans := db.challans ++
              [⟨freshChallanId db, next_no "DC" per db, so_id, "OPEN"⟩] }
          { db with challans := db.challans ++
              [⟨freshChallanId db, next_no "DC" per db, so_id, "OPEN"⟩] } rfl
        have hch := challanLoop_proj DB.challans (fun _ _ => rfl)
          (fun _ _ => rfl) so.warehouse_id (freshChallanId db)
          (db.soLines.filter (fun l => l.so_id == so_id))
          { db with challans := db.challans ++
              [⟨freshChallanId db, next_no "DC" per db, so_id, "OPEN"⟩] }
          { db with challans := db.challans ++
              [⟨freshChallanId db, next_no "DC" per db, so_id, "OPEN"⟩] } rfl
        cases hloop : challanLoop so.warehouse_id (freshChallanId db)
            (db.soLines.filter (fun l => l.so_id == so_id))
            { db with challans := db.challans ++
                [⟨freshChallanId db, next_no "DC" per db, so_id, "OPEN"⟩] }
            { db with challans := db.challans ++
                [⟨freshChallanId db, next_no "DC" per db, so_id, "OPEN"⟩] } with
        | error e =>
          rw [hloop] at hok
          simp at hok
        | ok pending =>
          rw [hloop] at hok hsos hch
          injection hok with hdb'
          refine ⟨?_, ?_, ?_⟩
          · unfold soStatusView
            rw [hso]
            simp [hst]
          · rw [← hdb']
            unfold soStatusView findSO
            show ((pending.sos.map (fun s => if s.id == so_id then
              { s with status := "DISPATCHED" } else s)).find?
                (fun so => so.id == so_id)).map SalesOrder.status =
              some "DISPATCHED"
            rw [show pending.sos = db.sos from hsos]
            rw [find?_map_of_pred_inv _ _
              (fun a => by by_cases hc : (a.id == so_id) = true <;> simp [hc])]
            rw [show db.sos.find? (fun so => so.id == so_id) = some so from hso]
            have hid : so.id = so_id := by
              simpa using List.find?_some
                (show db.sos.find? (fun s0 => s0.id == so_id) = some so from hso)
            simp [hid]
          · rw [← hdb']
            unfold challanStatusView findChallan
            show ((pending.challans).find?
                (fun dc => dc.id == freshChallanId db)).map Challan.status =
              some "OPEN"
            rw [show pending.challans = db.challans ++
              [⟨freshChallanId db, next_no "DC" per db, so_id, "OPEN"⟩] from hch]
            rw [find?_append_none (findChallan_fresh db)]
            simp [List.find?]
  · intro db dc_id t d per dc hdc hst
    simp only [invoice_create, hdc]
    rw [if_pos hst]
  · intro db db' dc_id t d per hok
    cases hdc : findChallan db dc_id with
    | none =>
      simp only [invoice_create, hdc] at hok
      cases hok
    | some dc =>
      simp only [invoice_create, hdc] at hok
      by_cases hst : dc.status ≠ "OPEN"
      · rw [if_pos hst] at hok
        simp at hok
      · rw [if_neg hst] at hok
        push_neg at hst
        cases hso : findSO db dc.so_id with
        | none =>
          simp only [hso] at hok
          cases hok
        | some so =>
          simp only [hso] at hok
          cases hparty : findParty db so.party_id with
          | none =>
            simp only [hparty] at hok
            cases hok
          | some party =>
            simp only [hparty] at hok
            split_ifs at hok
            injection hok with hdb'
            have hid : dc.id = dc_id := by
              simpa using List.find?_some
                (show db.challans.find? (fun c => c.id == dc_id) = some dc
                  from hdc)
            have hfind : findChallan db' dc_id =
                some { dc with status := "INVOICED" } := by
              rw [← hdb']
              unfold findChallan
              show (db.challans.map (fun c => if c.id == dc_id then
                { c with status := "INVOICED" } else c)).find?
                  (fun dc => dc.id == dc_id) = _
              rw [find?_map_of_pred_inv _ _
                (fun a => by by_cases hc : (a.id == dc_id) = true <;> simp [hc])]
              rw [show db.challans.find? (fun c => c.id == dc_id) = some dc
                from hdc]
              simp [hid]
            refine ⟨?_, ?_, ?_⟩
            · unfold challanStatusView
              rw [hdc]
              simp [hst]
            · unfold challanStatusView
              rw [hfind]
              rfl
            · intro t2 d2 per2
              have hcond : ({ dc with status := "INVOICED" } :
                  Challan).status ≠ "OPEN" := by
                show ("INVOICED" : String) ≠ "OPEN"
                decide
              simp only [invoice_create, hfind]
              rw [if_pos hcond]
  · exact step_challan_invoiced
  · exact step_rn_posted
  · intro a db inv_id h
    exact step_invoice_status a db inv_id "CANCELLED" h
  · intro a db so_id s hs h hne
    exact step_so_terminal a db so_id s hs h hne

/-- Counterexample to C3 as written: DISPATCHED is claimed terminal, but
main.py `so_approve` sets `so.status = "APPROVED"` with no status check, so
it re-opens an already dispatched order. -/
theorem so_approve_terminal_counterexample :
    soStatusView dispDB 1 = some "DISPATCHED" ∧
    so_approve dispDB 1 = .ok dispDBAfter ∧
    soStatusView dispDBAfter 1 = some "APPROVED" := by
  refine ⟨?_, ?_, ?_⟩ <;> with_unfolding_all decide

/-- Witness: the terminal-state preservation part of
`order_pipeline_state_machine` applied to a concrete DISPATCHED order and a
concrete non-approve action. -/
theorem order_pipeline_state_machine_witness :
    soStatusView dispDB 1 = some "DISPATCHED" ∧
    soStatusView (step (Req.addPayment 1 5) dispDB) 1 = some "DISPATCHED" :=
  ⟨by with_unfolding_all decide,
   order_pipeline_state_machine.2.2.2.2.2.2.2.2 (Req.addPayment 1 5) dispDB 1
     "DISPATCHED" (Or.inl rfl) (by with_unfolding_all decide)
     (fun x => by simp)⟩
